import Mathlib

/-
  Verification development for the web2json content-extraction core.

  The Python source (src/web2json/core/...) is shallowly embedded below.
  DOM trees produced by BeautifulSoup are modelled by the inductive `Node`;
  every node carries a numeric identity `nid` mirroring CPython object
  identity (`id(element)`), which the source uses for deduplication and
  which stays attached to a node across tree mutation (decompose).
  Machine floats in the scorer are modelled exactly as integer counts
  of hundredths; every float comparison the source makes agrees with the
  corresponding exact integer comparison (argued at the definition). Python exceptions are modelled with Except; in-place
  mutation of the soup (Tag.decompose) is modelled by explicit state
  passing of the whole tree.
-/

/-- A BeautifulSoup DOM node: a tag element with attributes and ordered
children, or a navigable string. `nid` models CPython object identity.
The `class` attribute is stored as its raw source text; token access
mirrors the multi-valued attribute handling of bs4. -/
inductive Node where
  | elem (nid : Nat) (tag : String) (attrs : List (String × String)) (children : List Node)
  | text (nid : Nat) (s : String)
deriving Repr

namespace Node

def nidOf : Node → Nat
  | .elem i _ _ _ => i
  | .text i _ => i

/-- bs4 `Tag.name`; NavigableStrings have no name, modelled as "". -/
def tagName : Node → String
  | .elem _ t _ _ => t
  | .text _ _ => ""

def isElem : Node → Bool
  | .elem _ _ _ _ => true
  | .text _ _ => false

def childrenOf : Node → List Node
  | .elem _ _ _ cs => cs
  | .text _ _ => []

/-- bs4 `element.get(attr)`: None when absent, modelled as Option. -/
def getAttr : Node → String → Option String
  | .elem _ _ attrs _, key => (attrs.find? (fun kv => kv.1 == key)).map (·.2)
  | .text _ _, _ => none

def hasAttr (n : Node) (key : String) : Bool :=
  (n.getAttr key).isSome

end Node

/-
  String primitives. They are implemented over the underlying character
  lists with structural recursion so that every definition in this file
  evaluates inside the kernel (core's Substring-based versions are
  defined by well-founded recursion and do not).
-/

def trimLeftL (l : List Char) : List Char := l.dropWhile Char.isWhitespace

def trimL (l : List Char) : List Char :=
  ((trimLeftL ((trimLeftL l).reverse)).reverse)

/-- Python str.strip() (ASCII whitespace; the exotic unicode cases never
arise in the embedded inputs). -/
def pyStrip (s : String) : String := ⟨trimL s.data⟩

def charLower (c : Char) : Char :=
  if 'A' ≤ c && c ≤ 'Z' then Char.ofNat (c.toNat + 32) else c

def pyLower (s : String) : String := ⟨s.data.map charLower⟩

/-- Maximal runs of characters not satisfying `p` (the pieces of a
split-on-`p` with empties dropped). -/
def splitRuns (p : Char → Bool) : List Char → List (List Char)
  | [] => []
  | c :: cs =>
    match splitRuns p cs with
    | [] => if p c then [] else [[c]]
    | r :: rs =>
      if p c then [] :: r :: rs
      else match cs with
        | [] => [[c]]
        | d :: _ => if p d then [c] :: r :: rs else (c :: r) :: rs

/-- Python str.split() with no argument: split on whitespace runs,
dropping empty pieces. -/
def pySplitWs (s : String) : List String :=
  ((splitRuns Char.isWhitespace s.data).filter (· ≠ [])).map (⟨·⟩)

/-- Split on every occurrence of the character `c` (Python
str.split("c")): n separators produce n+1 pieces, empties kept. -/
def splitOnChar (c : Char) : List Char → List (List Char)
  | [] => [[]]
  | d :: ds =>
    match splitOnChar c ds with
    | [] => [[]]
    | r :: rs => if d == c then [] :: r :: rs else (d :: r) :: rs

def listStartsWith : List Char → List Char → Bool
  | _, [] => true
  | [], _ :: _ => false
  | c :: cs, d :: ds => c == d && listStartsWith cs ds

def listContains (hay needle : List Char) : Bool :=
  match hay with
  | [] => listStartsWith [] needle
  | _ :: rest => listStartsWith hay needle || listContains rest needle

def strStartsWith (s pre : String) : Bool := listStartsWith s.data pre.data

/-- Python `needle in hay` on strings (substring containment). -/
def strContains (hay needle : String) : Bool := listContains hay.data needle.data

def strTake (s : String) (n : Nat) : String := ⟨s.data.take n⟩

def strDrop (s : String) (n : Nat) : String := ⟨s.data.drop n⟩

/-- Python s[-n:]. -/
def strTakeLast (s : String) (n : Nat) : String := ⟨s.data.drop (s.data.length - n)⟩

def strLen (s : String) : Nat := s.data.length

def strJoinWith (sep : String) : List String → String
  | [] => ""
  | [s] => s
  | s :: rest => s ++ sep ++ strJoinWith sep rest

def strConcat (l : List String) : String := strJoinWith "" l

def digitsToNat (l : List Char) : Nat :=
  l.foldl (fun acc c => acc * 10 + (c.toNat - 48)) 0

/-- Python int(s) for the string arguments reachable in this code base:
optional surrounding whitespace, optional sign, decimal digits.
None models the ValueError raise. -/
def pyInt (s : String) : Option Int :=
  let t := trimL s.data
  let core := if listStartsWith t ['-'] || listStartsWith t ['+'] then t.drop 1 else t
  if core ≠ [] && core.all Char.isDigit then
    some (if listStartsWith t ['-'] then -(digitsToNat core : Int) else (digitsToNat core : Int))
  else
    none

/-- bs4 multi-valued class attribute: the raw class text split on
whitespace (`element.get("class")` returns this token list). -/
def Node.classTokens (n : Node) : List String :=
  pySplitWs ((n.getAttr "class").getD "")

/-- The string the source builds by `" ".join(element.get("class", []))`. -/
def Node.classString (n : Node) : String :=
  strJoinWith " " n.classTokens

/-- `element.get("id", "")`. -/
def Node.idString (n : Node) : String :=
  (n.getAttr "id").getD ""

mutual

/-- An element together with its element descendants, in document
(pre-)order; empty for a navigable string. -/
def Node.elemsIncl : Node → List Node
  | .text _ _ => []
  | .elem i t a cs => .elem i t a cs :: nodeListDescendantElems cs

def nodeListDescendantElems : List Node → List Node
  | [] => []
  | c :: cs => Node.elemsIncl c ++ nodeListDescendantElems cs

end

/-- All element descendants of a node in document (pre-)order, the node
itself excluded: bs4 `element.find_all(True)`. -/
def Node.descendantElems (n : Node) : List Node :=
  nodeListDescendantElems n.childrenOf

/-- bs4 `element.find_all(tags)`: element descendants whose tag is in the
set, in document order. -/
def Node.findAllTags (n : Node) (tags : List String) : List Node :=
  n.descendantElems.filter (fun d => tags.contains d.tagName)

/-- bs4 `element.find(tag)`: first matching descendant in document order. -/
def Node.findTag (n : Node) (tag : String) : Option Node :=
  (n.findAllTags [tag]).head?

mutual

/-- The raw strings of all text descendants, in document order
(bs4 `get_text()` is their concatenation). -/
def Node.textPieces : Node → List String
  | .text _ s => [s]
  | .elem _ _ _ cs => nodeListTextPieces cs

def nodeListTextPieces : List Node → List String
  | [] => []
  | c :: cs => Node.textPieces c ++ nodeListTextPieces cs

end

/-- bs4 `element.get_text()`. -/
def Node.getText (n : Node) : String :=
  strConcat n.textPieces

/-- bs4 `element.get_text(strip=True)`: each text piece stripped, empty
pieces dropped, joined with the empty separator. -/
def Node.getTextStrip (n : Node) : String :=
  strConcat (n.textPieces.map pyStrip)

/-- `len(element.get_text(strip=True))` (Python len counts code points). -/
def Node.textStripLen (n : Node) : Nat :=
  strLen n.getTextStrip

mutual

/-- Structural equality of two nodes ignoring identity: bs4 `Tag.__eq__`
(same name, attributes and contents) resp. NavigableString equality,
which Python's `in` operator uses for membership tests. -/
def Node.eqNoId : Node → Node → Bool
  | .text _ s, .text _ t => s == t
  | .elem _ t1 a1 c1, .elem _ t2 a2 c2 =>
    t1 == t2 && a1 == a2 && nodeListEqNoId c1 c2
  | _, _ => false

def nodeListEqNoId : List Node → List Node → Bool
  | [], [] => true
  | c :: cs, d :: ds => Node.eqNoId c d && nodeListEqNoId cs ds
  | _, _ => false

end

/-- Find the node with the given identity in the tree (the node itself
included): dereferencing a retained Python object reference against the
current state of the mutated soup. -/
def findById (root : Node) (i : Nat) : Option Node :=
  if root.nidOf = i then some root
  else (root.descendantElems.find? (fun d => d.nidOf = i))

mutual

/-- Child-index path from `root` to the element with identity `i`
(indices count all siblings, text nodes included, exactly as bs4
`previous_siblings` iteration does). -/
def pathOf : Node → Nat → Option (List Nat)
  | .text j _, i => if j = i then some [] else none
  | .elem j _ _ cs, i =>
    if j = i then some [] else pathOfAux cs i 0

def pathOfAux : List Node → Nat → Nat → Option (List Nat)
  | [], _, _ => none
  | c :: cs, i, j =>
    match pathOf c i with
    | some p => some (j :: p)
    | none => pathOfAux cs i (j + 1)

end

mutual

/-- The parent element of the node with identity `i`, if any
(`element.parent`, with the root playing the soup's role). -/
def parentOfId : Node → Nat → Option Node
  | .text _ _, _ => none
  | .elem j t a cs, i =>
    if j = i then none
    else if cs.any (fun c => c.nidOf = i) then some (.elem j t a cs)
    else parentOfIdAux cs i

def parentOfIdAux : List Node → Nat → Option Node
  | [], _ => none
  | c :: cs, i =>
    match parentOfId c i with
    | some p => some p
    | none => parentOfIdAux cs i

end

/-
  ## Element classifier and shared pattern matching
  (src/web2json/core/extractors/hierarchical/content_finder.py and
  content_scorer.py)

  The source's regexes all have the shape
  `(^|\s)(w1|w2|...)(\s|$)` with re.IGNORECASE, where no alternative
  contains whitespace; such a regex matches a string exactly when one of
  its whitespace-delimited tokens, lowercased, is one of the listed
  words.  `pyTokenSearch` is that exact characterisation.
-/

def pyTokenSearch (words : List String) (s : String) : Bool :=
  (pySplitWs (pyLower s)).any (fun t => words.contains t)

def CONTENT_CLASS_PATTERNS : List (List String) :=
  [["article", "blog", "post", "entry", "content", "main", "body", "text", "page"],
   ["prose", "markdown", "md", "doc", "document", "story", "narrative"],
   ["sl-markdown-content"]]

def NON_CONTENT_PATTERNS : List (List String) :=
  [["sidebar", "widget", "banner", "ad", "advertisement", "promo", "popup"],
   ["menu", "nav", "footer", "header", "copyright", "social", "share", "toolbar"],
   ["comment", "related", "recommended", "popular", "trending"]]

def matchesAnyGroup (groups : List (List String)) (s : String) : Bool :=
  groups.any (fun g => pyTokenSearch g s)

/-- content_finder.is_likely_non_content. -/
def is_likely_non_content (element : Node) : Bool :=
  if ["nav", "footer", "header"].contains element.tagName then true
  else if element.classTokens ≠ [] && matchesAnyGroup NON_CONTENT_PATTERNS element.classString then true
  else if element.idString ≠ "" && matchesAnyGroup NON_CONTENT_PATTERNS element.idString then true
  else ["navigation", "banner", "contentinfo"].contains ((element.getAttr "role").getD "")

/-
  ## Text renderer, base variant
  (src/web2json/core/extractors/base.py get_element_text)

  The source reparses str(element) into a fresh soup (an identical tree
  for the well-formed trees modelled here), decomposes every element
  whose tag is in EXCLUDE_TAGS, replaces br elements by newline text
  nodes, unwraps every other element (all of them when preserve_styles
  is false, the non-style ones when true), takes get_text() of what
  remains and normalises whitespace. `renderFilter` performs the
  decompose/replace/unwrap passes in one bottom-up traversal, which
  yields the same final node list.
-/

def STYLE_TAGS : List String :=
  ["b", "strong", "i", "em", "sup", "sub", "u", "mark",
   "small", "s", "del", "ins", "abbr", "cite", "q", "dfn",
   "time", "code", "var", "samp", "kbd", "span"]

def EXCLUDE_TAGS : List String :=
  ["script", "style", "noscript", "iframe", "svg", "canvas",
   "button", "input", "select", "option", "form", "meta", "link"]

mutual

def renderFilter (preserve : Bool) : Node → List Node
  | .text i s => [.text i s]
  | .elem i t a cs =>
    if EXCLUDE_TAGS.contains t then []
    else if t == "br" then [.text 0 "\n"]
    else
      let inner := renderFilterList preserve cs
      if preserve && STYLE_TAGS.contains t then [.elem i t a inner] else inner

def renderFilterList (preserve : Bool) : List Node → List Node
  | [] => []
  | c :: cs => renderFilter preserve c ++ renderFilterList preserve cs

end

def collapseWsAux : Bool → List Char → List Char
  | _, [] => []
  | prevWs, c :: cs =>
    if c.isWhitespace then
      (if prevWs then collapseWsAux true cs else ' ' :: collapseWsAux true cs)
    else c :: collapseWsAux false cs

/-- re.sub(r"\s+", " ", s): collapse every whitespace run to one space. -/
def collapseWs (s : String) : String := ⟨collapseWsAux false s.data⟩

/-- The final whitespace normalisation of base.get_element_text:
splitlines, strip each line, join the non-empty ones with spaces,
collapse whitespace runs, strip. -/
def normalize_ws (text : String) : String :=
  let lines := (splitRuns (fun c => c == '\n' || c == '\r') text.data).map trimL
  let joined := strJoinWith " " ((lines.filter (· ≠ [])).map (fun l => (⟨l⟩ : String)))
  pyStrip (collapseWs joined)

def listGetText (l : List Node) : String :=
  strConcat (l.map Node.getText)

/-- base.get_element_text (the renderer used by the hierarchical
extraction path). Kept style tags are not serialised back because the
source takes soup.get_text() of the processed copy, so the output is
plain text for either flag value. -/
def get_element_text (element : Node) (preserve_styles : Bool) : String :=
  normalize_ws (listGetText (renderFilter preserve_styles element))

/-
  ## Text renderer, extract.py variant
  (src/web2json/core/extract.py get_element_text)

  This legacy variant unwraps span elements first, then unwraps all
  remaining tags (preserve_styles false) or all non-style tags
  (preserve_styles true), and returns " ".join(str(soup).split()) — the
  serialised markup, so preserved style tags appear literally in the
  output. The serialiser does not model HTML entity escaping, which the
  embedded inputs never need.
-/

mutual

def spanUnwrap : Node → List Node
  | .text i s => [.text i s]
  | .elem i t a cs =>
    let inner := spanUnwrapList cs
    if t == "span" then inner else [.elem i t a inner]

def spanUnwrapList : List Node → List Node
  | [] => []
  | c :: cs => spanUnwrap c ++ spanUnwrapList cs

end

mutual

def styleUnwrap (preserve : Bool) : Node → List Node
  | .text i s => [.text i s]
  | .elem i t a cs =>
    let inner := styleUnwrapList preserve cs
    if preserve && STYLE_TAGS.contains t then [.elem i t a inner] else inner

def styleUnwrapList (preserve : Bool) : List Node → List Node
  | [] => []
  | c :: cs => styleUnwrap preserve c ++ styleUnwrapList preserve cs

end

/-- The tree remaining after extract.py's two unwrap passes. -/
def extractpy_filtered (preserve_styles : Bool) (element : Node) : List Node :=
  styleUnwrapList preserve_styles (spanUnwrap element)

mutual

/-- str(element): bs4 markup serialisation (without entity escaping). -/
def serializeNode : Node → String
  | .text _ s => s
  | .elem _ t attrs cs =>
    "<" ++ t ++ strConcat (attrs.map (fun kv => " " ++ kv.1 ++ "=\"" ++ kv.2 ++ "\"")) ++ ">"
      ++ serializeList cs ++ "</" ++ t ++ ">"

def serializeList : List Node → String
  | [] => ""
  | c :: cs => serializeNode c ++ serializeList cs

end

/-- extract.py get_element_text. -/
def extractpy_get_element_text (element : Node) (preserve_styles : Bool) : String :=
  strJoinWith " " (pySplitWs (serializeList (extractpy_filtered preserve_styles element)))

mutual

/-- No span element occurs anywhere in the node. -/
def Node.spanFree : Node → Bool
  | .text _ _ => true
  | .elem _ t _ cs => !(t == "span") && nodeListSpanFree cs

def nodeListSpanFree : List Node → Bool
  | [] => true
  | c :: cs => Node.spanFree c && nodeListSpanFree cs

end

/-
  ## Content scorer
  (src/web2json/core/extractors/hierarchical/content_scorer.py)

  The Python score is a float built from components that are all integer
  multiples of 1/100; it is modelled exactly as an integer number of
  hundredths.  Every comparison the source makes on float quotients
  (average paragraph length > 40, link-text ratio > 0.5, and the
  finder's text-to-tag ratio > 10) is stated below as the equivalent
  exact integer comparison; IEEE division agrees with the exact
  comparison at every such threshold because a quotient equal to the
  integer threshold is exactly representable.
-/

def H_TAGS : List String := ["h1", "h2", "h3", "h4", "h5", "h6"]

/-- content_scorer.score_content_element, in exact hundredths
(e.g. a Python score of 6.5 is the integer 650). -/
def score_content_element (element : Node) : Int :=
  let text_length : Int := element.textStripLen
  -- min(text_length / 100, 10), in hundredths
  let s_text := min text_length 1000
  let s_semantic : Int := if ["article", "main", "section"].contains element.tagName then 500 else 0
  -- one +3 bonus at the first matching pattern (for ... break)
  let s_class : Int :=
    if element.classTokens ≠ [] && matchesAnyGroup CONTENT_CLASS_PATTERNS element.classString then 300 else 0
  let s_id : Int :=
    if element.idString ≠ "" && matchesAnyGroup CONTENT_CLASS_PATTERNS element.idString then 300 else 0
  -- the source subtracts 5 once per NON_CONTENT_PATTERNS entry that
  -- matches the class string or the id string (no break in this loop)
  let s_penalty : Int :=
    500 * (NON_CONTENT_PATTERNS.countP (fun g =>
      pyTokenSearch g element.classString || pyTokenSearch g element.idString) : Int)
  let s_headings : Int := 200 * ((element.findAllTags H_TAGS).length : Int)
  let paragraphs := element.findAllTags ["p"]
  let p_total : Int := (paragraphs.map Node.textStripLen).sum
  let s_para : Int :=
    if paragraphs.length > 0 then
      (if p_total > 40 * (paragraphs.length : Int) then 300 else 0)
        + min (50 * (paragraphs.length : Int)) 500
    else 0
  let s_lists : Int :=
    150 * ((element.findAllTags ["ul", "ol", "blockquote", "pre", "code", "table"]).length : Int)
  let links := element.findAllTags ["a"]
  let link_text : Int := (links.map Node.textStripLen).sum
  let s_links : Int :=
    if links.length > 0 then
      (if (if text_length > 0 then 2 * link_text > text_length else True) then -400 else 0)
    else 0
  max (s_text + s_semantic + s_class + s_id - s_penalty + s_headings + s_para + s_lists + s_links) 0

mutual

/-- Remove every script/style/noscript subtree strictly below the node
(`for tag in elem.find_all(["script","style","noscript"]): tag.decompose()`). -/
def stripSSN : Node → Node
  | .text i s => .text i s
  | .elem i t a cs => .elem i t a (stripSSNList cs)

def stripSSNList : List Node → List Node
  | [] => []
  | c :: cs =>
    (if ["script", "style", "noscript"].contains c.tagName then [] else [stripSSN c])
      ++ stripSSNList cs

end

mutual

/-- Replace (in place) the node with identity `i` by `repl`. -/
def replaceById : Node → Nat → Node → Node
  | .text j s, i, repl => if j = i then repl else .text j s
  | .elem j t a cs, i, repl =>
    if j = i then repl else .elem j t a (replaceByIdList cs i repl)

def replaceByIdList : List Node → Nat → Node → List Node
  | [], _, _ => []
  | c :: cs, i, repl => replaceById c i repl :: replaceByIdList cs i repl

end

/-- content_scorer.get_content_text_length.  The source's
`elem_copy = element` aliases the live element, so the decompose calls
mutate the caller's tree: the function returns the measured length and
the mutated tree. -/
def get_content_text_length (tree : Node) (cid : Nat) : Nat × Node :=
  match findById tree cid with
  | none => (0, tree)
  | some el =>
    let stripped := stripSSN el
    (stripped.textStripLen, replaceById tree cid stripped)

/-- content_scorer.create_content_fingerprint. -/
def create_content_fingerprint (element : Node) : Option String :=
  let text := element.getTextStrip
  if strLen text < 15 then none
  else
    let text_start := pyStrip (strTake text 20)
    let text_end := if strLen text > 40 then pyStrip (strTakeLast text 20) else ""
    some (element.tagName ++ ":" ++ text_start ++ ":" ++ text_end)

/-
  ## Table extractor
  (src/web2json/core/extractors/table_extractor.py)
-/

structure TableRec where
  caption : Option String
  headers : Option (List String)
  rows : List (List String)
deriving Repr, DecidableEq

/-- Python truthiness of the `headers` variable (None or empty list). -/
def headersFalsy : Option (List String) → Bool
  | none => true
  | some l => l.isEmpty

/-- table_extractor.extract_table.  Nothing in its body can raise for
the modelled inputs, so the try/except that returns None is not
reachable; None here is only the empty-rows result. -/
def extract_table (table : Node) (preserve_styles : Bool) : Option TableRec :=
  let caption := (table.findTag "caption").map (fun c => get_element_text c preserve_styles)
  let thead := table.findTag "thead"
  let headers0 : Option (List String) :=
    match thead with
    | some th =>
      match th.findTag "tr" with
      | some header_row =>
        some ((header_row.findAllTags ["th", "td"]).map (fun c => get_element_text c preserve_styles))
      | none => none
    | none => none
  -- `if not headers:` — try the first row when headers is None or []
  let headers : Option (List String) :=
    if headersFalsy headers0 then
      match table.findTag "tr" with
      | some first_row =>
        if (first_row.findTag "th").isSome then
          some ((first_row.findAllTags ["th"]).map (fun c => get_element_text c preserve_styles))
        else headers0
      | none => headers0
    else headers0
  let body_rows := table.findAllTags ["tr"]
  let start_idx :=
    if !headersFalsy headers && !body_rows.isEmpty && thead.isNone then
      match body_rows.head? with
      | some r0 => if (r0.findTag "th").isSome && (r0.findTag "td").isNone then 1 else 0
      | none => 0
    else 0
  let rows := (body_rows.drop start_idx).filterMap (fun row =>
    let cells := (row.findAllTags ["td", "th"]).map (fun c => get_element_text c preserve_styles)
    if cells.isEmpty then none else some cells)
  if rows.isEmpty then none
  else some { caption := caption, headers := headers, rows := rows }

/-- table_extractor.is_data_table, with the int("...") ValueError on a
non-numeric border attribute modelled as Except.error.  Note two
faithful oddities of the source: the row-count check returns False
before the border/tbody checks can run, and
`table.has_attr("role") == "grid"` compares a bool to a string and so
is always False. -/
def is_data_table (table : Node) : Except String Bool :=
  if (table.findTag "th").isSome || (table.findTag "thead").isSome then .ok true
  else if (table.findTag "caption").isSome then .ok true
  else
    let rows := table.findAllTags ["tr"]
    if rows.length ≤ 1 then .ok false
    else
      let cell_counts := rows.map (fun r => (r.findAllTags ["td", "th"]).length)
      if (match cell_counts with
          | [] => false
          | c0 :: rest => rest.all (· = c0) && c0 > 1) then .ok true
      else if table.hasAttr "border" then
        match pyInt ((table.getAttr "border").getD "0") with
        | none => .error "invalid literal for int() with base 10"
        | some v =>
          if v > 0 then .ok true
          else if (table.findTag "tbody").isSome || (table.findTag "tfoot").isSome
              || table.hasAttr "summary" || false then .ok true
          else .ok false
      else if (table.findTag "tbody").isSome || (table.findTag "tfoot").isSome
          || table.hasAttr "summary" || false then .ok true
      else .ok false

/-
  ## Content finder
  (src/web2json/core/extractors/hierarchical/content_finder.py)
-/

def FINDER_STRUCTURAL_TAGS : List String :=
  ["h1", "h2", "h3", "h4", "h5", "h6",
   "p", "blockquote", "pre", "ul", "ol", "dl", "table",
   "article", "section", "main"]

/-- A reference a Python variable can hold to an extracted block: either
a live element of the soup (held by object identity) or a synthetic
paragraph built around a bare text node, which belongs to its own tiny
soup and is not part of the document. -/
inductive Block where
  | ref (nid : Nat)
  | synth (node : Node)
deriving Repr

/-- Dereference a block against the current state of the tree. -/
def blockNode (tree : Node) (b : Block) : Option Node :=
  match b with
  | .ref i => findById tree i
  | .synth n => some n

/-- Python `element in potential_elements`: list membership via
bs4 `Tag.__eq__`, which is structural equality (identity ignored). -/
def structuralMember (tree : Node) (potential : List Nat) (el : Node) : Bool :=
  potential.any (fun pid =>
    match findById tree pid with
    | some pn => Node.eqNoId pn el
    | none => false)

mutual

/-- An element (under the given ancestor-tag chain, nearest first) with
its element descendants, each paired with its ancestor tags. -/
def Node.elemsWithAncIncl (anc : List String) : Node → List (Node × List String)
  | .text _ _ => []
  | .elem i t a cs => (Node.elem i t a cs, anc) :: elemsWithAncList (t :: anc) cs

/-- Pre-order element descendants of the nodes of a list, each paired
with the list of its ancestors' tags (nearest first). -/
def elemsWithAncList : List String → List Node → List (Node × List String)
  | _, [] => []
  | anc2, c :: cs => Node.elemsWithAncIncl anc2 c ++ elemsWithAncList anc2 cs

end

mutual

/-- An element (with the given following siblings) and its element
descendants, each paired with its own following siblings. -/
def Node.elemsWithSibsIncl (sibs : List Node) : Node → List (Node × List Node)
  | .text _ _ => []
  | .elem i t a cs => (Node.elem i t a cs, sibs) :: elemsWithSibsList cs

/-- Pre-order element descendants, each paired with its following
sibling nodes (text nodes included, as in bs4 next_siblings). -/
def elemsWithSibsList : List Node → List (Node × List Node)
  | [] => []
  | c :: cs => Node.elemsWithSibsIncl cs c ++ elemsWithSibsList cs

end

def dedupByNid (ids : List Nat) : List Nat :=
  (ids.foldl (fun acc i => if acc.contains i then acc else acc ++ [i]) [])

/-- content_finder.find_main_content_elements, returning the candidate
elements by identity, in the source's accumulation order. -/
def find_main_content_elements (soup : Node) : List Nat :=
  -- Strategy 1: semantic HTML5 elements
  let s1 := (soup.findAllTags ["article", "main", "section"]).map Node.nidOf
  -- Strategy 2: content-related class/id values
  let potential := soup.descendantElems.foldl (fun pot el =>
    if structuralMember soup pot el then pot
    else
      let pot1 :=
        if el.classTokens ≠ [] && matchesAnyGroup CONTENT_CLASS_PATTERNS el.classString
        then pot ++ [el.nidOf] else pot
      -- the source checks the id attribute independently of whether the
      -- class attribute just matched, so a block can be appended twice
      if el.idString ≠ "" && matchesAnyGroup CONTENT_CLASS_PATTERNS el.idString
      then pot1 ++ [el.nidOf] else pot1) s1
  -- Strategy 3: known framework/CMS containers
  let starlight := (soup.descendantElems.filter (fun el =>
      el.classTokens.contains "sl-markdown-content" || el.classTokens.contains "prose")).map Node.nidOf
  let cms := (soup.descendantElems.filter (fun el =>
      el.classTokens.contains "entry-content" || el.classTokens.contains "post-content"
        || el.classTokens.contains "article-body" || el.classTokens.contains "content-area")).map Node.nidOf
  let medium := ((elemsWithAncList [soup.tagName] soup.childrenOf).filter (fun ea =>
      (ea.1.tagName == "section" && ea.2.contains "article")
        || (ea.1.getAttr "role") == some "article")).map (fun ea => ea.1.nidOf)
  let docs := (soup.descendantElems.filter (fun el =>
      el.classTokens.contains "documentation" || el.classTokens.contains "docs-content"
        || el.classTokens.contains "markdown-body")).map Node.nidOf
  let potential := potential ++ starlight ++ cms ++ medium ++ docs
  -- Strategy 4: text-to-tag ratio of generic divs (ratio > 10 stated as
  -- the equivalent exact integer comparison)
  let potential := (soup.findAllTags ["div"]).foldl (fun pot div =>
    if structuralMember soup pot div || div.textStripLen < 200 then pot
    else
      let tags_count := div.descendantElems.length
      if tags_count > 0 && (div.textStripLen : Int) > 10 * (tags_count : Int)
      then pot ++ [div.nidOf] else pot) potential
  dedupByNid potential

/-- The subtree-wide fallback scan of content_finder.extract_content_blocks
(the `if not blocks:` branch; its `structural in block` guard is over an
empty list there and can never fire). -/
def ecbFallback (el : Node) : List Block :=
  ((el.findAllTags FINDER_STRUCTURAL_TAGS).filter (fun s =>
    !(s.textStripLen < 30 && !H_TAGS.contains s.tagName) && !is_likely_non_content s)).map
    (fun s => Block.ref s.nidOf)

mutual

/-- content_finder.extract_content_blocks. -/
def extract_content_blocks : Node → List Block
  | .text _ _ => []
  | .elem i t a cs =>
    let direct := ecbChildren cs
    if direct.isEmpty then ecbFallback (.elem i t a cs) else direct

/-- The direct-children walk: structural children become blocks, bare
text nodes over the minimum length become synthetic paragraphs, other
containers are recursed into (with their own fallback, as in the
source's self-call). -/
def ecbChildren : List Node → List Block
  | [] => []
  | c :: cs =>
    (match c with
     | .text _ s =>
       if pyStrip s == "" then []
       else if strLen (pyStrip s) > 20 then [Block.synth (Node.elem 0 "p" [] [Node.text 0 s])]
       else []
     | .elem i t a gs =>
       if FINDER_STRUCTURAL_TAGS.contains t then
         (if is_likely_non_content (.elem i t a gs) then [] else [Block.ref i])
       else if !(["script", "style", "meta", "link", "noscript", "svg", "button", "input"].contains t) then
         extract_content_blocks (.elem i t a gs)
       else [])
    ++ ecbChildren cs

end

/-- The sibling walk after a heading in extract_content_aggressively:
collect p/ul/ol/blockquote/pre siblings up to the next heading. -/
def sibCollect : List Node → List Block
  | [] => []
  | s :: rest =>
    match s with
    | .text _ _ => sibCollect rest
    | .elem i t _ _ =>
      if H_TAGS.contains t then []
      else if ["p", "ul", "ol", "blockquote", "pre"].contains t then
        Block.ref i :: sibCollect rest
      else sibCollect rest

/-- content_finder.extract_content_aggressively.  is_data_table is
called with no try/except around it, so its ValueError on a malformed
border attribute propagates out of the whole scan. -/
def extract_content_aggressively (soup : Node) : Except String (List Block) := do
  let hBlocks := (elemsWithSibsList soup.childrenOf).foldl (fun acc hs =>
    if H_TAGS.contains hs.1.tagName then
      if hs.1.textStripLen < 10 then acc
      else if is_likely_non_content hs.1 then acc
      else acc ++ [Block.ref hs.1.nidOf] ++ sibCollect hs.2
    else acc) []
  let pBlocks := (soup.findAllTags ["p"]).filterMap (fun p =>
    if p.textStripLen < 20 then none
    else if is_likely_non_content p then none
    else some (Block.ref p.nidOf))
  let lBlocks := (soup.findAllTags ["ul", "ol"]).filterMap (fun l =>
    if (l.findAllTags ["li"]).isEmpty then none
    else if is_likely_non_content l then none
    else some (Block.ref l.nidOf))
  let cBlocks := (soup.findAllTags ["pre", "code"]).filterMap (fun pr =>
    if pr.textStripLen < 10 then none else some (Block.ref pr.nidOf))
  let tBlocks ← (soup.findAllTags ["table"]).foldlM (fun acc tb => do
    let isData ← is_data_table tb
    pure (if isData && !is_likely_non_content tb then acc ++ [Block.ref tb.nidOf] else acc)) []
  pure (hBlocks ++ pBlocks ++ lBlocks ++ cBlocks ++ tBlocks)

/-
  ## Content items
  (src/web2json/models/content.py)

  The tagged union of extracted items.  The Section constructor is named
  `sect` (section is a Lean keyword); a list item either has no nested
  list or carries the type and items of the one nested list kept.
-/

inductive LItem where
  | leaf (text : String)
  | nest (text : String) (list_type : String) (items : List LItem)
deriving Repr

/-- The fields of a CodeContent record. -/
structure CodeRec where
  text : String
  language : Option String
  caption : Option String
deriving Repr, DecidableEq

inductive ContentItem where
  | heading (level : Nat) (text : String)
  | paragraph (text : String)
  | blockquote (text : String)
  | list (list_type : String) (items : List LItem)
  | code (c : CodeRec)
  | table (t : TableRec)
  | sect (level : Nat) (content : List ContentItem)
deriving Repr

/-- `int(block.name[1])` for h1..h6. -/
def headingLevel (tag : String) : Nat :=
  digitsToNat (tag.data.drop 1)

/-
  ## List extractor
  (src/web2json/core/extractors/list_extractor.py)
-/

/-- list_extractor.get_list_text_content: direct children of the li,
nested lists excluded; inline style markup kept verbatim only for the
six listed tags when preserve_styles is set. -/
def get_list_text_content (li : Node) (preserve_styles : Bool) : String :=
  let parts := li.childrenOf.foldl (fun acc child =>
    match child with
    | .text _ s =>
      let t := pyStrip s
      if t ≠ "" then acc ++ [t] else acc
    | .elem i t a gs =>
      if t == "ul" || t == "ol" then acc
      else if preserve_styles && ["b", "strong", "i", "em", "u", "code"].contains t then
        acc ++ [serializeNode (.elem i t a gs)]
      else
        let tx := pyStrip (Node.getText (.elem i t a gs))
        if tx ≠ "" then acc ++ [tx] else acc) []
  strJoinWith " " (pySplitWs (strJoinWith " " parts))

mutual

/-- list_extractor.extract_list_items. -/
def extract_list_items : Node → Bool → List LItem
  | .text _ _, _ => []
  | .elem _ _ _ cs, preserve => eliItems cs preserve

/-- find_all("li", recursive=False): the direct li children. -/
def eliItems : List Node → Bool → List LItem
  | [], _ => []
  | c :: cs, preserve =>
    (match c with
     | .text _ _ => []
     | .elem i t a gs =>
       if t == "li" then
         let text := get_list_text_content (.elem i t a gs) preserve
         [match eliFirstNested gs preserve with
          | some nested =>
            if !nested.2.isEmpty then
              LItem.nest text (if nested.1 == "ol" then "ordered" else "unordered") nested.2
            else LItem.leaf text
          | none => LItem.leaf text]
       else [])
    ++ eliItems cs preserve

/-- The first direct ul/ol child of a li, recursively extracted
(further sibling nested lists are dropped by the source). -/
def eliFirstNested : List Node → Bool → Option (String × List LItem)
  | [], _ => none
  | c :: cs, preserve =>
    match c with
    | .text _ _ => eliFirstNested cs preserve
    | .elem i t a gs =>
      if t == "ul" || t == "ol" then some (t, extract_list_items (.elem i t a gs) preserve)
      else eliFirstNested cs preserve

end

/-
  ## Code block extractor
  (src/web2json/core/extractors/code_extractor.py)

  The regular expressions of the source are small enough to implement
  directly; each helper below documents the regex it realises.  All the
  keyword alternations matched below are prefix-free, so the first
  alternative that matches at the leftmost position is the regex match.
-/

def isWordChar (c : Char) : Bool :=
  c.isAlphanum || c == '_'

/-- re.search(pfx + r"(\w+)", s) for a literal prefix (optionally with
interleaved whitespace, for r"brush:\s*(\w+)"): the captured word run at
the leftmost occurrence. -/
def captureAfterL (skipWs : Bool) (pfx : List Char) : List Char → Option (List Char)
  | [] => none
  | c :: cs =>
    if listStartsWith (c :: cs) pfx then
      let rest0 := (c :: cs).drop pfx.length
      let rest := if skipWs then rest0.dropWhile Char.isWhitespace else rest0
      let w := rest.takeWhile isWordChar
      if !w.isEmpty then some w else captureAfterL skipWs pfx cs
    else captureAfterL skipWs pfx cs

/-- re.search(r"(\w+)" + sfx, s) for a literal suffix starting with a
non-word character: the leftmost maximal word run directly followed by
the suffix. -/
def captureBeforeAux (sfx : List Char) (run : List Char) : List Char → Option (List Char)
  | [] => none
  | c :: cs =>
    if !run.isEmpty && listStartsWith (c :: cs) sfx then some run.reverse
    else if isWordChar c then captureBeforeAux sfx (c :: run) cs
    else captureBeforeAux sfx [] cs

def captureBeforeL (sfx : List Char) (l : List Char) : Option (List Char) :=
  captureBeforeAux sfx [] l

/-- re.search of a plain alternation of literals: leftmost position,
first alternative listed that matches there. -/
def pyAltSearch (alts : List String) : List Char → Option String
  | [] => none
  | c :: cs =>
    match alts.find? (fun a => listStartsWith (c :: cs) a.data) with
    | some a => some a
    | none => pyAltSearch alts cs

def LANGUAGE_NAME_ALTS : List String :=
  ["html", "css", "js", "javascript", "python", "ruby", "php", "java",
   "go", "rust", "cpp", "csharp", "shell", "bash", "sql"]

/-- The LANGUAGE_CLASS_PATTERNS loop of detect_code_language applied to
one class token: five case-sensitive capture patterns, then the
case-insensitive alternation of bare language names. -/
def langFromClassName (cn : String) : Option String :=
  let d := cn.data
  match captureAfterL false "language-".data d with
  | some w => some (pyLower ⟨w⟩)
  | none =>
  match captureAfterL false "lang-".data d with
  | some w => some (pyLower ⟨w⟩)
  | none =>
  match captureAfterL false "syntax-".data d with
  | some w => some (pyLower ⟨w⟩)
  | none =>
  match captureAfterL true "brush:".data d with
  | some w => some (pyLower ⟨w⟩)
  | none =>
  match captureBeforeL "-syntax".data d with
  | some w => some (pyLower ⟨w⟩)
  | none => pyAltSearch LANGUAGE_NAME_ALTS (pyLower cn).data

def firstSome {α : Type} : List (Option α) → Option α
  | [] => none
  | some a :: _ => some a
  | none :: rest => firstSome rest

/-- re.search(r"^\s*(kw1|kw2|...)\s+\w+(\s+import)?", text, re.MULTILINE)
applied at one anchor position. -/
def sniffAt (kws : List String) (trailing : Bool) (l : List Char) : Bool :=
  let l1 := l.dropWhile Char.isWhitespace
  match kws.find? (fun k => listStartsWith l1 k.data) with
  | none => false
  | some k =>
    let l2 := l1.drop k.data.length
    match l2 with
    | [] => false
    | c :: _ =>
      if c.isWhitespace then
        let l3 := l2.dropWhile Char.isWhitespace
        let w := l3.takeWhile isWordChar
        if w.isEmpty then false
        else if trailing then
          let l4 := l3.drop w.length
          let l5 := l4.dropWhile Char.isWhitespace
          !l4.isEmpty && (match l4 with
            | d :: _ => d.isWhitespace
            | [] => false) && listStartsWith l5 "import".data
        else true
      else false

def sniffAnchors (kws : List String) (trailing : Bool) : List Char → Bool
  | [] => false
  | c :: cs => (c == '\n' && sniffAt kws trailing cs) || sniffAnchors kws trailing cs

/-- MULTILINE search: the pattern anchored at the start of the text or
right after any newline. -/
def sniffSearch (kws : List String) (trailing : Bool) (l : List Char) : Bool :=
  sniffAt kws trailing l || sniffAnchors kws trailing l

def phpAt (l : List Char) : Bool :=
  listStartsWith (l.dropWhile Char.isWhitespace) "<?php".data

def phpAnchors : List Char → Bool
  | [] => false
  | c :: cs => (c == '\n' && phpAt cs) || phpAnchors cs

def phpSearch (l : List Char) : Bool :=
  phpAt l || phpAnchors l

/-- code_extractor.detect_code_language.  The element's class tokens are
tried against the language patterns, then the parent's, then the three
data-* attributes on element then parent, then content sniffing. -/
def detect_code_language (parent : Option Node) (element : Node) : Option String :=
  match firstSome (element.classTokens.map langFromClassName) with
  | some l => some l
  | none =>
  match parent.bind (fun p => firstSome (p.classTokens.map langFromClassName)) with
  | some l => some l
  | none =>
  match firstSome (["data-language", "data-lang", "data-code-language"].map (fun a =>
    match element.getAttr a with
    | some v => some (pyLower v)
    | none => parent.bind (fun p => (p.getAttr a).map pyLower))) with
  | some l => some l
  | none =>
    let t := element.getText
    if strStartsWith (pyStrip t) "$" || strStartsWith (pyStrip t) "#!" then some "bash"
    else if sniffSearch ["import", "from"] true t.data then some "python"
    else if sniffSearch ["function", "const", "let", "var"] false t.data then some "javascript"
    else if sniffSearch ["class", "public", "private"] false t.data then some "code"
    else if phpSearch t.data then some "php"
    else none

mutual

/-- The recursive extract_text walk of extract_formatted_code: text
nodes verbatim, br becomes a newline, script/style subtrees skipped. -/
def rawCodeText : Node → String
  | .text _ s => s
  | .elem _ t _ cs =>
    if t == "br" then "\n"
    else if t == "script" || t == "style" then ""
    else rawCodeTextList cs

def rawCodeTextList : List Node → String
  | [] => ""
  | c :: cs => rawCodeText c ++ rawCodeTextList cs

end

/-- Normalise CRLF and CR to LF (re.sub(r"\r\n|\r", "\n", s)). -/
def normNl : List Char → List Char
  | [] => []
  | '\r' :: '\n' :: rest => '\n' :: normNl rest
  | '\r' :: rest => '\n' :: normNl rest
  | c :: rest => c :: normNl rest

/-- code_extractor.extract_formatted_code. -/
def extract_formatted_code (element : Node) : String :=
  let code_tag := if element.tagName == "pre" then (element.findTag "code").getD element else element
  let raw := rawCodeText code_tag
  let raw := if raw == "" then code_tag.getText else raw
  let content : List Char := normNl raw.data
  let lines := splitOnChar '\n' content
  -- minimum leading-whitespace count over the non-blank lines
  let common_indent : Option Nat := lines.foldl (fun acc l =>
    if trimL l = [] then acc
    else
      let ind := (l.takeWhile Char.isWhitespace).length
      match acc with
      | none => some ind
      | some m => some (min m ind)) none
  let lines2 := match common_indent with
    | some ci =>
      if ci > 0 then
        lines.map (fun l =>
          if trimL l ≠ [] then l.drop (min ci ((l.takeWhile Char.isWhitespace).length)) else l)
      else lines
    | none => lines
  let content2 := strJoinWith "\n" (lines2.map (fun l => (⟨l⟩ : String)))
  -- content.strip("\n")
  ⟨((content2.data.dropWhile (· == '\n')).reverse.dropWhile (· == '\n')).reverse⟩

def Node.descHasElems (n : Node) : Bool :=
  !n.descendantElems.isEmpty

def findByClassTokenPred (el : Node) (p : String → Bool) : Option Node :=
  el.descendantElems.find? (fun d => d.classTokens.any p)

def CAPTION_PATTERN_WORDS : List String :=
  ["caption", "title", "header", "heading", "label",
   "code-label", "code-title", "code-caption", "snippet-title"]

/-- code_extractor.extract_code_caption.

The pattern loop alternates a class search with a data-attribute search
written `element.find(attrs=lambda a: ...)`.  bs4 treats a non-dict
`attrs` as a match on the class attribute and calls the lambda on each
class token string (or None for a tag with no class); `a.keys()` then
raises AttributeError on every call.  The probe is therefore reached,
and raises, exactly when the element has at least one element descendant
and the first pattern's ("caption") class search found nothing — the
caught error sends extract_code_block to its fallback.  When the element
has no element descendants, every descendant search in the loop is
vacuous and control reaches the sibling/attribute checks. -/
def extract_code_caption (parent : Option Node) (prevSib : Option Node) (element : Node) :
    Except Unit (Option String) :=
  match element.findTag "figcaption" with
  | some f => .ok (some f.getTextStrip)
  | none =>
  match (match parent with
         | some par => if par.tagName == "figure" then par.findTag "figcaption" else none
         | none => none) with
  | some pc => .ok (some pc.getTextStrip)
  | none =>
  match findByClassTokenPred element (fun tok => strContains (pyLower tok) "caption") with
  | some c => .ok (some c.getTextStrip)
  | none =>
  if element.descHasElems then .error ()
  else
  match (match prevSib with
    | some ps =>
      if ["div", "p", "span", "h3", "h4", "h5", "h6"].contains ps.tagName then
        let t := ps.getTextStrip
        if t ≠ "" && strLen t < 100 then
          -- `pattern in prev_sibling.get("class", [])` is exact token
          -- membership; `pattern in prev_sibling.get("id", "")` is a
          -- substring test
          if CAPTION_PATTERN_WORDS.any (fun pat =>
              ps.classTokens.contains pat || strContains ps.idString pat)
          then some t else none
        else none
      else none
    | none => none) with
  | some t => .ok (some t)
  | none =>
  -- screen-reader classes: vacuous here (no element descendants), kept
  -- for fidelity with the source's order
  match firstSome (["sr-only", "visually-hidden", "screen-reader", "sr"].map (fun pat =>
    match findByClassTokenPred element (fun tok => strContains tok pat) with
    | some sr =>
      let t := sr.getTextStrip
      if strContains (pyLower t) "terminal" then some t else none
    | none => none)) with
  | some t => .ok (some t)
  | none =>
  match element.getAttr "title" with
  | some ti =>
    if pyStrip ti ≠ "" then .ok (some (pyStrip ti))
    else .ok (captionTail parent element)
  | none => .ok (captionTail parent element)
where
  captionTail (parent : Option Node) (element : Node) : Option String :=
    match parent.bind (fun par => par.getAttr "title") with
    | some pt =>
      if pyStrip pt ≠ "" then some (pyStrip pt)
      else captionTail2 parent element
    | none => captionTail2 parent element
  captionTail2 (parent : Option Node) (element : Node) : Option String :=
    match element.getAttr "aria-label" with
    | some al =>
      if pyStrip al ≠ "" then some (pyStrip al)
      else captionTail3 parent element
    | none => captionTail3 parent element
  captionTail3 (parent : Option Node) (element : Node) : Option String :=
    if ["frame is-terminal", "terminal-window", "command-line"].any (fun pat =>
        element.classTokens.any (fun c => strContains c pat)
          || (match parent with
              | some par => par.classTokens.any (fun c => strContains c pat)
              | none => false))
    then some "Terminal window"
    else none

/-- code_extractor.extract_code_block.  Any exception inside the try
(the caption probe's AttributeError, or the ValueError on empty
extracted text) falls back to unformatted get_text with language
detection on the original element; the ultimate "Error extracting code"
fallback is unreachable because constructing the record cannot fail.
The preserve_styles parameter is accepted and ignored, as in the
source. -/
def extract_code_block (parent : Option Node) (prevSib : Option Node) (element : Node)
    (_preserve_styles : Bool) : CodeRec :=
  let ctx : Node × Option Node :=
    if ["pre", "code"].contains element.tagName then (element, parent)
    else match element.findTag "pre" with
      | some pe => (pe, parentOfId element pe.nidOf)
      | none =>
        match element.findTag "code" with
        | some ce => (ce, parentOfId element ce.nidOf)
        | none => (element, parent)
  let code_element := ctx.1
  let code_parent := ctx.2
  match extract_code_caption parent prevSib element with
  | .error _ =>
    { text := element.getText, language := detect_code_language parent element, caption := none }
  | .ok caption =>
    let language := detect_code_language code_parent code_element
    let text_content := extract_formatted_code code_element
    if pyStrip text_content == "" then
      { text := element.getText, language := detect_code_language parent element, caption := none }
    else { text := text_content, language := language, caption := caption }

/-
  ## Hierarchical organizer
  (src/web2json/core/extractors/hierarchical/content_organizer.py)
-/

/-- The ancestor-chain position key of content_organizer.get_position:
own preceding-sibling count, plus each ancestor's preceding-sibling
count weighted by one more factor of 1000.  For a node whose child-index
path from the root is [i0, ..., ik] this is the base-1000 value of the
digits. -/
def get_position (tree : Node) (b : Block) : Nat :=
  match b with
  | .synth _ => 0
  | .ref i =>
    match pathOf tree i with
    | some p => p.foldl (fun acc x => acc * 1000 + x) 0
    | none => 0

/-- content_organizer.sort_blocks_by_position: Python sorted() is a
stable ascending sort by key, realised by insertionSort. -/
def sort_blocks_by_position (tree : Node) (blocks : List Block) : List Block :=
  List.insertionSort (fun a b => get_position tree a ≤ get_position tree b) blocks

/-- The nearest preceding sibling tag of the node with identity `i`
(bs4 find_previous_sibling()). -/
def prevTagSib (tree : Node) (i : Nat) : Option Node :=
  match parentOfId tree i with
  | none => none
  | some par =>
    let cs := par.childrenOf
    match cs.findIdx? (fun c => c.nidOf = i) with
    | some j => (cs.take j).reverse.find? Node.isElem
    | none => none

/-- Close the topmost open section: wrap it up as a Section item and
append it to the enclosing open section's content, or to the top-level
result when none is open.  In the source the Section object was placed
there at creation time and filled in place; closing it here at pop time
appends to its parent before anything later can be appended, so the
final contents coincide. -/
def popGEGo (L : Nat) (result : List ContentItem) (pending : Option ContentItem) :
    List (Nat × List ContentItem) → List ContentItem × List (Nat × List ContentItem)
  | [] =>
    (match pending with
     | some sec => result ++ [sec]
     | none => result, [])
  | (lvl, content) :: rest =>
    let content2 := match pending with
      | some sec => content ++ [sec]
      | none => content
    if lvl ≥ L then popGEGo L result (some (ContentItem.sect lvl content2)) rest
    else (result, (lvl, content2) :: rest)

/-- In the source each closed Section object was appended to its parent
at creation time and filled in place; popGEGo instead carries the just
closed section down to the enclosing frame (or the result list), which
puts it in the identical spot. -/
def popGE (L : Nat) (result : List ContentItem)
    (stack : List (Nat × List ContentItem)) :
    List ContentItem × List (Nat × List ContentItem) :=
  popGEGo L result none stack

/-- Append a non-heading item to the innermost open section, or to the
result list when the stack is empty. -/
def appendItem (item : ContentItem) (result : List ContentItem)
    (stack : List (Nat × List ContentItem)) :
    List ContentItem × List (Nat × List ContentItem) :=
  match stack with
  | (lvl, content) :: rest => (result, (lvl, content ++ [item]) :: rest)
  | [] => (result ++ [item], [])

/-- Organizer state: top-level result, stack of open (level, content)
sections (innermost first), and the fingerprints already processed. -/
structure OrgState where
  result : List ContentItem
  stack : List (Nat × List ContentItem)
  processed : List String

/-- One iteration of the main loop of organize_hierarchically.  The only
operation inside the per-block try that can raise for the modelled
inputs is is_data_table's int() on a malformed border attribute; the
except then skips the block (its fingerprint, recorded before the
dispatch, stays in the processed set, as in the source). -/
def organizeStep (tree : Node) (preserve_styles : Bool) (st : OrgState) (b : Block) : OrgState :=
  match blockNode tree b with
  | none => st
  | some node =>
    let fp := create_content_fingerprint node
    if (match fp with
        | some f => st.processed.contains f
        | none => false) then st
    else
      let processed := match fp with
        | some f => st.processed ++ [f]
        | none => st.processed
      let t := node.tagName
      if H_TAGS.contains t then
        let level := headingLevel t
        let heading := ContentItem.heading level (get_element_text node preserve_styles)
        let rs := popGE level st.result st.stack
        { result := rs.1, stack := (level, [heading]) :: rs.2, processed := processed }
      else if t == "p" then
        let text := get_element_text node preserve_styles
        if pyStrip text == "" then { st with processed := processed }
        else
          let rs := appendItem (ContentItem.paragraph text) st.result st.stack
          { result := rs.1, stack := rs.2, processed := processed }
      else if t == "ul" || t == "ol" then
        let list_type := if t == "ol" then "ordered" else "unordered"
        let item := ContentItem.list list_type (extract_list_items node preserve_styles)
        let rs := appendItem item st.result st.stack
        { result := rs.1, stack := rs.2, processed := processed }
      else if t == "blockquote" then
        let item := ContentItem.blockquote (get_element_text node preserve_styles)
        let rs := appendItem item st.result st.stack
        { result := rs.1, stack := rs.2, processed := processed }
      else if t == "pre" || (t == "div" && (node.findTag "pre").isSome) then
        let ctx : Option Node × Option Node :=
          match b with
          | .ref i => (parentOfId tree i, prevTagSib tree i)
          | .synth _ => (none, none)
        let item := ContentItem.code (extract_code_block ctx.1 ctx.2 node preserve_styles)
        let rs := appendItem item st.result st.stack
        { result := rs.1, stack := rs.2, processed := processed }
      else if t == "table" then
        match is_data_table node with
        | .error _ => { st with processed := processed }
        | .ok isData =>
          if isData then
            match extract_table node preserve_styles with
            | some tb =>
              let rs := appendItem (ContentItem.table tb) st.result st.stack
              { result := rs.1, stack := rs.2, processed := processed }
            | none => { st with processed := processed }
          else { st with processed := processed }
      else { st with processed := processed }

/-- The flat second pass of organize_hierarchically (`if not result and
blocks:`): every block re-examined without deduplication, each
recognised type emitted directly into a flat list.  Its per-block
try/except likewise only skips on is_data_table's error. -/
def organizeFlat (tree : Node) (preserve_styles : Bool) (blocks : List Block) : List ContentItem :=
  blocks.foldl (fun result b =>
    match blockNode tree b with
    | none => result
    | some node =>
      let t := node.tagName
      if t == "p" then
        let text := get_element_text node preserve_styles
        if pyStrip text ≠ "" then result ++ [ContentItem.paragraph text] else result
      else if t == "ul" || t == "ol" then
        let list_type := if t == "ol" then "ordered" else "unordered"
        result ++ [ContentItem.list list_type (extract_list_items node preserve_styles)]
      else if H_TAGS.contains t then
        result ++ [ContentItem.heading (headingLevel t) (get_element_text node preserve_styles)]
      else if t == "blockquote" then
        result ++ [ContentItem.blockquote (get_element_text node preserve_styles)]
      else if t == "pre" || (node.findTag "pre").isSome then
        let ctx : Option Node × Option Node :=
          match b with
          | .ref i => (parentOfId tree i, prevTagSib tree i)
          | .synth _ => (none, none)
        result ++ [ContentItem.code (extract_code_block ctx.1 ctx.2 node preserve_styles)]
      else if t == "table" then
        match is_data_table node with
        | .error _ => result
        | .ok isData =>
          if isData then
            match extract_table node preserve_styles with
            | some tb => result ++ [ContentItem.table tb]
            | none => result
          else result
      else result) []

/-- content_organizer.organize_hierarchically. -/
def organize_hierarchically (tree : Node) (blocks : List Block) (preserve_styles : Bool) :
    List ContentItem :=
  let st := blocks.foldl (organizeStep tree preserve_styles)
    { result := [], stack := [], processed := [] }
  -- in the source every open section already sits in its parent;
  -- here the still-open stack is flushed (popGE 0 closes everything)
  let flushed := popGE 0 st.result st.stack
  let result := flushed.1
  if result.isEmpty && !blocks.isEmpty then
    organizeFlat tree preserve_styles blocks
  else result

/-
  ## Hierarchical extraction orchestrator
  (src/web2json/core/extractors/hierarchical/extractor.py)
-/

/-- Deduplicate freshly extracted blocks against the running fingerprint
set: blocks without a fingerprint (too little text) are dropped here,
exactly as in the source's candidate loop. -/
def dedupNewBlocks (tree : Node) : List Block → List String → List Block × List String
  | [], fps => ([], fps)
  | b :: bs, fps =>
    match (blockNode tree b).bind create_content_fingerprint with
    | some f =>
      if fps.contains f then dedupNewBlocks tree bs fps
      else
        let rest := dedupNewBlocks tree bs (fps ++ [f])
        (b :: rest.1, rest.2)
    | none => dedupNewBlocks tree bs fps

def blocksTextTotal (tree : Node) (blocks : List Block) : Nat :=
  ((blocks.filterMap (blockNode tree)).map Node.textStripLen).sum

/-- The candidate loop of extract_content_hierarchically: process
candidates best score first, stop once the accumulated blocks exceed 5
and the accumulated text exceeds 500 characters. -/
def candLoop (tree : Node) : List (Nat × Int) → List Block → List String →
    List Block × List String × Bool
  | [], blocks, fps => (blocks, fps, false)
  | (cid, _) :: rest, blocks, fps =>
    let eb := match findById tree cid with
      | some el => extract_content_blocks el
      | none => []
    let nb := dedupNewBlocks tree eb fps
    let blocks2 := blocks ++ nb.1
    if blocksTextTotal tree blocks2 > 500 && blocks2.length > 5 then (blocks2, nb.2, true)
    else candLoop tree rest blocks2 nb.2

/-- extractor.extract_content_hierarchically.  The returned tree is the
state of the input soup after the call: the get_content_text_length
filter decomposes script/style/noscript inside every candidate.  An
Except.error models the raised ExtractError (the only raise reachable
from the body is is_data_table's ValueError inside the aggressive scan,
wrapped by the catch-all except). -/
def extract_content_hierarchically (soup : Node) (preserve_styles : Bool) :
    Except String (List ContentItem) × Node :=
  let cand0 := find_main_content_elements soup
  let cand1 := if cand0.isEmpty then
      [(match soup.findTag "body" with
        | some b => b.nidOf
        | none => soup.nidOf)]
    else cand0
  -- filter for substantial text length; the measurement mutates
  let st := cand1.foldl (fun (st : Node × List Nat) cid =>
    let r := get_content_text_length st.1 cid
    (r.2, if r.1 > 30 then st.2 ++ [cid] else st.2)) (soup, [])
  let tree1 := st.1
  let kept := st.2
  let scored := kept.map (fun cid =>
    (cid, match findById tree1 cid with
          | some el => score_content_element el
          | none => 0))
  -- list.sort(key=score, reverse=True) is a stable descending sort
  let sortedCands := List.insertionSort (fun a b => b.2 ≤ a.2) scored
  let r := candLoop tree1 sortedCands [] []
  let afterAggr : Except String (List Block) :=
    if r.2.2 then .ok r.1
    else
      match extract_content_aggressively tree1 with
      | .error e => .error e
      | .ok aggressive => .ok (r.1 ++ (dedupNewBlocks tree1 aggressive r.2.1).1)
  match afterAggr with
  | .error e => (.error ("Failed to extract hierarchical content: " ++ e), tree1)
  | .ok allBlocks =>
    let sorted := sort_blocks_by_position tree1 allBlocks
    (.ok (organize_hierarchically tree1 sorted preserve_styles), tree1)

/-
  ## Extract pipeline stage
  (src/web2json/core/pipeline_stages/extract_stage.py)
-/

/-- ExtractStage._extract_fallback: all paragraphs and headings by bare
get_text, then every pre as a code block. -/
def extract_fallback (soup : Node) (preserve_styles : Bool) : List ContentItem :=
  let ps := (soup.findAllTags ["p"]).filterMap (fun p =>
    let t := p.getTextStrip
    if t ≠ "" then some (ContentItem.paragraph t) else none)
  let hs := (soup.findAllTags H_TAGS).filterMap (fun h =>
    let t := h.getTextStrip
    if t ≠ "" then some (ContentItem.heading (headingLevel h.tagName) t) else none)
  let pres := (soup.findAllTags ["pre"]).map (fun pre =>
    ContentItem.code (extract_code_block (parentOfId soup pre.nidOf) (prevTagSib soup pre.nidOf) pre preserve_styles))
  ps ++ hs ++ pres

/-- The synchronous content of ExtractStage.process: run the
hierarchical extraction; on an empty result run the direct fallback; if
that is empty too, raise ExtractError.  Any ExtractError from the inner
call is re-wrapped by the stage's except clause. -/
def extract_stage_process (soup : Node) (preserve_styles : Bool) :
    Except String (List ContentItem) :=
  match extract_content_hierarchically soup preserve_styles with
  | (.error e, _) => .error ("Failed to extract content: " ++ e)
  | (.ok content, tree1) =>
    if content.isEmpty then
      match extract_fallback tree1 preserve_styles with
      | [] => .error "Failed to extract content: Failed to extract any content from the document"
      | l => .ok l
    else .ok content

/-
  ## Concrete documents used to settle the claims

  Each document is a complete soup: a "[document]" root (the
  BeautifulSoup object) over html and body, with fresh node identities.
-/

/-- An empty document: html with an empty body. -/
def emptyDoc : Node :=
  .elem 0 "[document]" [] [.elem 1 "html" [] [.elem 2 "body" [] []]]

/-- A document holding one substantial paragraph and one layout-ish
table whose border attribute is not a valid integer (the table has two
rows with differing cell counts, so is_data_table reaches the int()
call). -/
def doc2 : Node :=
  .elem 0 "[document]" []
    [.elem 1 "html" []
      [.elem 2 "body" []
        [.elem 3 "p" [] [.text 4 "This paragraph has thirty-plus characters."],
         .elem 5 "table" [("border", "abc")]
           [.elem 6 "tr" [] [.elem 7 "td" [] [.text 8 "a"], .elem 9 "td" [] [.text 10 "b"]],
            .elem 11 "tr" [] [.elem 12 "td" [] [.text 13 "c"]]]]]]

/-- The malformed table of doc2, as its own element (identity 5). -/
def doc2_table : Node :=
  .elem 5 "table" [("border", "abc")]
    [.elem 6 "tr" [] [.elem 7 "td" [] [.text 8 "a"], .elem 9 "td" [] [.text 10 "b"]],
     .elem 11 "tr" [] [.elem 12 "td" [] [.text 13 "c"]]]

/-- A document with a substantial paragraph and a script element in the
body. -/
def doc3 : Node :=
  .elem 0 "[document]" []
    [.elem 1 "html" []
      [.elem 2 "body" []
        [.elem 3 "p" [] [.text 4 "This paragraph has thirty-plus characters."],
         .elem 5 "script" [] [.text 6 "var x = 1;"]]]]

def doc4_scriptText : String :=
  "var analytics = window.analytics || []; analytics.load(key); analytics.page(); console.log(state); var q = document.querySelectorAll(sel); q.forEach(registerHandler);"

def doc4_bareText : String := " Bare text node content exceeding twenty characters. "

def doc4_p1 : String := "Paragraph one has enough text here to pass every filter applied here."

def doc4_p2 : String := "Paragraph two also has enough text to pass all the filters applied."

def doc4_p3 : String := "Paragraph three rounds out this trio with sufficient text volume."

/-- A document with two divs: the first couples a long script with a
bare text node (its text volume clears the content-finder's 200
character bar only while the script is present), the second holds three
substantial paragraphs. -/
def doc4 : Node :=
  .elem 0 "[document]" []
    [.elem 1 "html" []
      [.elem 2 "body" []
        [.elem 10 "div" []
          [.elem 11 "script" [] [.text 12 doc4_scriptText],
           .text 13 doc4_bareText],
         .elem 20 "div" []
          [.elem 21 "p" [] [.text 22 doc4_p1],
           .elem 23 "p" [] [.text 24 doc4_p2],
           .elem 25 "p" [] [.text 26 doc4_p3]]]]]

/-- The C5 test input <p>A <b>bold</b> and <span class="x">hi</span> text</p>. -/
def p5 : Node :=
  .elem 1 "p" []
    [.text 2 "A ",
     .elem 3 "b" [] [.text 4 "bold"],
     .text 5 " and ",
     .elem 6 "span" [("class", "x")] [.text 7 "hi"],
     .text 8 " text"]

/-- A thead-less table whose first row holds both a th and a td. -/
def tbl6 : Node :=
  .elem 1 "table" []
    [.elem 2 "tr" [] [.elem 3 "th" [] [.text 4 "H"], .elem 5 "td" [] [.text 6 "D"]],
     .elem 7 "tr" [] [.elem 8 "td" [] [.text 9 "a"], .elem 10 "td" [] [.text 11 "b"]]]

/-- A single-row table with border="2" and no th/thead/caption. -/
def tbl7 : Node :=
  .elem 1 "table" [("border", "2")]
    [.elem 2 "tr" [] [.elem 3 "td" [] [.text 4 "x"], .elem 5 "td" [] [.text 6 "y"]]]

/-- A two-row table with role="grid" and nothing else that could make it
a data table (differing cell counts, no border, no th/thead/caption). -/
def tblRole : Node :=
  .elem 1 "table" [("role", "grid")]
    [.elem 2 "tr" [] [.elem 3 "td" [] [.text 4 "x"], .elem 5 "td" [] [.text 6 "y"]],
     .elem 7 "tr" [] [.elem 8 "td" [] [.text 9 "z"]]]

/-- A document whose body holds a div with two paragraphs followed by a
top-level paragraph: the second inner paragraph (identity 6) precedes
the outer one (identity 8) in document order but their position keys
tie. -/
def tree8 : Node :=
  .elem 0 "[document]" []
    [.elem 1 "html" []
      [.elem 2 "body" []
        [.elem 3 "div" []
          [.elem 4 "p" [] [.text 5 "inner paragraph number one"],
           .elem 6 "p" [] [.text 7 "inner paragraph number two"]],
         .elem 8 "p" [] [.text 9 "outer paragraph after div"]]]]

/-- An element whose class matches two of the three non-content pattern
groups (sidebar, nav) and which carries three heading descendants. -/
def cex10 : Node :=
  .elem 1 "div" [("class", "sidebar nav")]
    [.elem 2 "h2" [] [.text 3 "ab"],
     .elem 4 "h2" [] [.text 5 "cd"],
     .elem 6 "h2" [] [.text 7 "ef"]]

/-
  ## Spec-side definitions used to state corrected claims
-/

/-- The position of the element with identity `i` in the document's
pre-order traversal (index into find_all(True) from the root). -/
def docOrderIndex (tree : Node) (i : Nat) : Nat :=
  (tree.descendantElems.map Node.nidOf).findIdx (· = i)

/-- x occurs strictly before y somewhere in l. -/
def listBefore {α : Type} (l : List α) (x y : α) : Prop :=
  ∃ l1 l2 l3, l = l1 ++ x :: (l2 ++ y :: l3)

/-- The scoring formula exactly as claim C10 words it: the same
components as score_content_element, but a class or id matching one or
more non-content patterns incurs a single total penalty of -5. -/
def score_content_element_claimC10 (element : Node) : Int :=
  let text_length : Int := element.textStripLen
  let s_text := min text_length 1000
  let s_semantic : Int := if ["article", "main", "section"].contains element.tagName then 500 else 0
  let s_class : Int :=
    if element.classTokens ≠ [] && matchesAnyGroup CONTENT_CLASS_PATTERNS element.classString then 300 else 0
  let s_id : Int :=
    if element.idString ≠ "" && matchesAnyGroup CONTENT_CLASS_PATTERNS element.idString then 300 else 0
  let s_penalty : Int :=
    if NON_CONTENT_PATTERNS.any (fun g =>
      pyTokenSearch g element.classString || pyTokenSearch g element.idString) then 500 else 0
  let s_headings : Int := 200 * ((element.findAllTags H_TAGS).length : Int)
  let paragraphs := element.findAllTags ["p"]
  let p_total : Int := (paragraphs.map Node.textStripLen).sum
  let s_para : Int :=
    if paragraphs.length > 0 then
      (if p_total > 40 * (paragraphs.length : Int) then 300 else 0)
        + min (50 * (paragraphs.length : Int)) 500
    else 0
  let s_lists : Int :=
    150 * ((element.findAllTags ["ul", "ol", "blockquote", "pre", "code", "table"]).length : Int)
  let links := element.findAllTags ["a"]
  let link_text : Int := (links.map Node.textStripLen).sum
  let s_links : Int :=
    if links.length > 0 then
      (if (if text_length > 0 then 2 * link_text > text_length else True) then -400 else 0)
    else 0
  max (s_text + s_semantic + s_class + s_id - s_penalty + s_headings + s_para + s_lists + s_links) 0

/-- The number of non-content pattern groups matched by the element's
class string or id string. -/
def nonContentGroupCount (element : Node) : Nat :=
  NON_CONTENT_PATTERNS.countP (fun g =>
    pyTokenSearch g element.classString || pyTokenSearch g element.idString)

/-- Every scoring component except the non-content penalty, in
hundredths. -/
def score_components_no_penalty (element : Node) : Int :=
  let text_length : Int := element.textStripLen
  let s_text := min text_length 1000
  let s_semantic : Int := if ["article", "main", "section"].contains element.tagName then 500 else 0
  let s_class : Int :=
    if element.classTokens ≠ [] && matchesAnyGroup CONTENT_CLASS_PATTERNS element.classString then 300 else 0
  let s_id : Int :=
    if element.idString ≠ "" && matchesAnyGroup CONTENT_CLASS_PATTERNS element.idString then 300 else 0
  let s_headings : Int := 200 * ((element.findAllTags H_TAGS).length : Int)
  let paragraphs := element.findAllTags ["p"]
  let p_total : Int := (paragraphs.map Node.textStripLen).sum
  let s_para : Int :=
    if paragraphs.length > 0 then
      (if p_total > 40 * (paragraphs.length : Int) then 300 else 0)
        + min (50 * (paragraphs.length : Int)) 500
    else 0
  let s_lists : Int :=
    150 * ((element.findAllTags ["ul", "ol", "blockquote", "pre", "code", "table"]).length : Int)
  let links := element.findAllTags ["a"]
  let link_text : Int := (links.map Node.textStripLen).sum
  let s_links : Int :=
    if links.length > 0 then
      (if (if text_length > 0 then 2 * link_text > text_length else True) then -400 else 0)
    else 0
  s_text + s_semantic + s_class + s_id + s_headings + s_para + s_lists + s_links

/-- The amended characterisation of when is_data_table answers true:
th, thead or caption present; or at least two rows and (identical cell
counts above one, or a border attribute parsing to a positive integer,
or a tbody/tfoot element or summary attribute).  role="grid" is absent:
the source compares has_attr("role") — a bool — to "grid". -/
def is_data_table_true_chars (table : Node) : Bool :=
  (table.findTag "th").isSome || (table.findTag "thead").isSome
    || (table.findTag "caption").isSome
    || ((table.findAllTags ["tr"]).length ≥ 2
        && ((match (table.findAllTags ["tr"]).map (fun r => (r.findAllTags ["td", "th"]).length) with
             | [] => false
             | c0 :: rest => rest.all (· = c0) && c0 > 1)
          || (match (table.getAttr "border").map pyInt with
              | some (some v) => v > 0
              | _ => false)
          || (table.findTag "tbody").isSome || (table.findTag "tfoot").isSome
          || table.hasAttr "summary"))

/-- The amended characterisation of when is_data_table raises: the
int() call is reached (none of the earlier positive checks fired, at
least two rows, cell counts not uniformly identical above one) and the
border attribute is present but not an integer literal. -/
def is_data_table_raises (table : Node) : Bool :=
  !((table.findTag "th").isSome || (table.findTag "thead").isSome
      || (table.findTag "caption").isSome)
    && (table.findAllTags ["tr"]).length ≥ 2
    && !(match (table.findAllTags ["tr"]).map (fun r => (r.findAllTags ["td", "th"]).length) with
         | [] => false
         | c0 :: rest => rest.all (· = c0) && c0 > 1)
    && (match (table.getAttr "border").map pyInt with
        | some none => true
        | _ => false)

/-- The amended header/row rule for thead-less tables: headers come from
the first tr whenever it contains at least one th (a td in the row does
not block them) and consist of the th cells only; that first row is
skipped from the data rows only when it has a th and no td; every
remaining tr contributes its td/th cell texts; rows with zero cells are
dropped; None when no rows remain. -/
def extract_table_spec_noThead (table : Node) (preserve_styles : Bool) : Option TableRec :=
  let caption := (table.findTag "caption").map (fun c => get_element_text c preserve_styles)
  let headers : Option (List String) :=
    match table.findTag "tr" with
    | some first_row =>
      if (first_row.findTag "th").isSome then
        some ((first_row.findAllTags ["th"]).map (fun c => get_element_text c preserve_styles))
      else none
    | none => none
  let body_rows := table.findAllTags ["tr"]
  let start_idx :=
    match headers, body_rows.head? with
    | some _, some r0 => if (r0.findTag "th").isSome && (r0.findTag "td").isNone then 1 else 0
    | _, _ => 0
  let rows := (body_rows.drop start_idx).filterMap (fun row =>
    let cells := (row.findAllTags ["td", "th"]).map (fun c => get_element_text c preserve_styles)
    if cells.isEmpty then none else some cells)
  if rows.isEmpty then none
  else some { caption := caption, headers := headers, rows := rows }

/-
  ## The section invariant of claim C9
-/

/-- A nested section must have a strictly greater level than the section
that contains it. -/
def sectionLevelOk (lvl : Nat) : ContentItem → Bool
  | .sect l _ => decide (lvl < l)
  | _ => true

/-- A section's content starts with a heading of the section's level. -/
def firstIsHeading (lvl : Nat) : List ContentItem → Bool
  | ContentItem.heading l _ :: _ => decide (l = lvl)
  | _ => false

mutual

/-- The claim C9 invariant for one item: every section, at any depth,
opens with a heading of its own level and contains only
strictly-deeper-level sections. -/
def itemOk : ContentItem → Bool
  | .sect lvl content => firstIsHeading lvl content && listItemsOk lvl content
  | _ => true

def listItemsOk (lvl : Nat) : List ContentItem → Bool
  | [] => true
  | c :: cs => sectionLevelOk lvl c && itemOk c && listItemsOk lvl cs

end

/-- An open-section frame is well formed when its content already starts
with its heading and respects the level discipline. -/
def frameOk (fr : Nat × List ContentItem) : Bool :=
  firstIsHeading fr.1 fr.2 && listItemsOk fr.1 fr.2

/-- The organizer stack invariant: every frame well formed, and levels
strictly decreasing outward (the innermost frame is the deepest). -/
def stackOk : List (Nat × List ContentItem) → Bool
  | [] => true
  | fr :: rest =>
    frameOk fr
      && (match rest with
          | [] => true
          | fr2 :: _ => decide (fr2.1 < fr.1))
      && stackOk rest

/-
  ## Supporting lemmas
-/

theorem nodeListSpanFree_append (a b : List Node) :
    nodeListSpanFree (a ++ b) = (nodeListSpanFree a && nodeListSpanFree b) := by
  induction a with
  | nil => simp [nodeListSpanFree]
  | cons c cs ih => simp [nodeListSpanFree, ih, Bool.and_assoc]

mutual

theorem spanUnwrap_spanFree : ∀ n : Node, nodeListSpanFree (spanUnwrap n) = true
  | .text i s => by simp [spanUnwrap, nodeListSpanFree, Node.spanFree]
  | .elem i t a cs => by
    have ih := spanUnwrapList_spanFree cs
    by_cases h : t == "span"
    · simp [spanUnwrap, h, ih]
    · simp [spanUnwrap, h, ih, nodeListSpanFree, Node.spanFree]

theorem spanUnwrapList_spanFree : ∀ l : List Node, nodeListSpanFree (spanUnwrapList l) = true
  | [] => by simp [spanUnwrapList, nodeListSpanFree]
  | c :: cs => by
    have h1 := spanUnwrap_spanFree c
    have h2 := spanUnwrapList_spanFree cs
    simp [spanUnwrapList, nodeListSpanFree_append, h1, h2]

end

mutual

theorem styleUnwrap_spanFree : ∀ (p : Bool) (n : Node),
    Node.spanFree n = true → nodeListSpanFree (styleUnwrap p n) = true
  | p, .text i s => by simp [styleUnwrap, nodeListSpanFree, Node.spanFree]
  | p, .elem i t a cs => by
    intro h
    simp only [Node.spanFree, Bool.and_eq_true] at h
    have ih := styleUnwrapList_spanFree p cs h.2
    simp only [styleUnwrap]
    split
    · simp [nodeListSpanFree, Node.spanFree, ih, h.1]
    · exact ih

theorem styleUnwrapList_spanFree : ∀ (p : Bool) (l : List Node),
    nodeListSpanFree l = true → nodeListSpanFree (styleUnwrapList p l) = true
  | p, [] => by simp [styleUnwrapList]
  | p, c :: cs => by
    intro h
    simp only [nodeListSpanFree, Bool.and_eq_true] at h
    have h1 := styleUnwrap_spanFree p c h.1
    have h2 := styleUnwrapList_spanFree p cs h.2
    simp [styleUnwrapList, nodeListSpanFree_append, h1, h2]

end

theorem extractpy_filtered_spanFree (p : Bool) (n : Node) :
    nodeListSpanFree (extractpy_filtered p n) = true :=
  styleUnwrapList_spanFree p (spanUnwrap n) (spanUnwrap_spanFree n)

theorem sorted_lt_before {α : Type} (key : α → Nat) :
    ∀ (l : List α) (x y : α), l.Pairwise (fun u v => key u ≤ key v) → x ∈ l → y ∈ l →
      key x < key y → listBefore l x y := by
  intro l
  induction l with
  | nil => intro x y _ hx _ _; exact absurd hx (List.not_mem_nil x)
  | cons z rest ih =>
    intro x y hp hx hy hk
    have hxy : x ≠ y := by
      intro he
      rw [he] at hk
      exact lt_irrefl _ hk
    rcases List.mem_cons.mp hx with hzx | hx2
    · have hy2 : y ∈ rest := by
        rcases List.mem_cons.mp hy with h1 | h1
        · exact absurd (hzx.trans h1.symm) hxy
        · exact h1
      obtain ⟨s, t, hst⟩ := List.append_of_mem hy2
      exact ⟨[], s, t, by simp [hst, hzx]⟩
    · rcases List.mem_cons.mp hy with hzy | hy2
      · have hle := (List.pairwise_cons.mp hp).1 x hx2
        rw [hzy] at hk
        exact absurd hle (by omega)
      · obtain ⟨l1, l2, l3, hl⟩ := ih x y (List.pairwise_cons.mp hp).2 hx2 hy2 hk
        exact ⟨z :: l1, l2, l3, by simp [hl]⟩

theorem sort_blocks_pairwise (tree : Node) (blocks : List Block) :
    (sort_blocks_by_position tree blocks).Pairwise
      (fun u v => get_position tree u ≤ get_position tree v) := by
  have ht : IsTotal Block (fun u v => get_position tree u ≤ get_position tree v) :=
    ⟨fun u v => Nat.le_total _ _⟩
  have htr : IsTrans Block (fun u v => get_position tree u ≤ get_position tree v) :=
    ⟨fun u v w h1 h2 => Nat.le_trans h1 h2⟩
  exact List.sorted_insertionSort _ blocks

theorem mem_sort_blocks (tree : Node) (blocks : List Block) (b : Block) :
    b ∈ blocks → b ∈ sort_blocks_by_position tree blocks := by
  intro h
  exact ((List.perm_insertionSort _ blocks).mem_iff).mpr h

theorem get_position_sibling_lt (tree : Node) (a b : Nat) (p : List Nat) (i j : Nat)
    (ha : pathOf tree a = some (p ++ [i])) (hb : pathOf tree b = some (p ++ [j]))
    (hij : i < j) :
    get_position tree (Block.ref a) < get_position tree (Block.ref b) := by
  simp [get_position, ha, hb, List.foldl_append]
  omega

theorem listItemsOk_append (lvl : Nat) (xs ys : List ContentItem) :
    listItemsOk lvl (xs ++ ys) = (listItemsOk lvl xs && listItemsOk lvl ys) := by
  induction xs with
  | nil => simp [listItemsOk]
  | cons c cs ih => simp [listItemsOk, ih, Bool.and_assoc]

theorem firstIsHeading_append (lvl : Nat) (xs : List ContentItem) (x : ContentItem)
    (h : firstIsHeading lvl xs = true) : firstIsHeading lvl (xs ++ [x]) = true := by
  cases xs with
  | nil => simp [firstIsHeading] at h
  | cons c cs => cases c <;> simp_all [firstIsHeading]

theorem appendItem_ok (item : ContentItem) (result : List ContentItem)
    (stack : List (Nat × List ContentItem))
    (hi : itemOk item = true) (hns : ∀ lvl, sectionLevelOk lvl item = true)
    (hr : result.all itemOk = true) (hst : stackOk stack = true) :
    (appendItem item result stack).1.all itemOk = true ∧
      stackOk (appendItem item result stack).2 = true := by
  cases stack with
  | nil =>
    refine ⟨?_, ?_⟩
    · simp [appendItem, List.all_append, hr, hi]
    · simp [appendItem, stackOk]
  | cons fr rest =>
    obtain ⟨lvl, content⟩ := fr
    simp only [appendItem]
    refine ⟨hr, ?_⟩
    simp only [stackOk, frameOk, Bool.and_eq_true] at hst ⊢
    obtain ⟨⟨⟨hfh, hlio⟩, hnb⟩, hrest⟩ := hst
    refine ⟨⟨⟨firstIsHeading_append _ _ _ hfh, ?_⟩, hnb⟩, hrest⟩
    simp [listItemsOk_append, hlio, listItemsOk, hns lvl, hi]

theorem frameOk_append_sect (lvl slvl : Nat) (content scont : List ContentItem)
    (hfr : frameOk (lvl, content) = true)
    (hsec : itemOk (ContentItem.sect slvl scont) = true)
    (hlt : lvl < slvl) :
    frameOk (lvl, content ++ [ContentItem.sect slvl scont]) = true := by
  simp only [frameOk, Bool.and_eq_true] at hfr ⊢
  refine ⟨firstIsHeading_append _ _ _ hfr.1, ?_⟩
  simp [listItemsOk_append, hfr.2, listItemsOk, sectionLevelOk, hsec, hlt]

theorem popGEGo_ok (L : Nat) :
    ∀ (stack : List (Nat × List ContentItem)) (result : List ContentItem)
      (pending : Option ContentItem),
      result.all itemOk = true → stackOk stack = true →
      (∀ it, pending = some it →
        itemOk it = true ∧
        ∃ slvl scont, it = ContentItem.sect slvl scont ∧ L ≤ slvl ∧
          (∀ fr rest2, stack = fr :: rest2 → fr.1 < slvl)) →
      (popGEGo L result pending stack).1.all itemOk = true ∧
        stackOk (popGEGo L result pending stack).2 = true ∧
        (∀ fr rest2, (popGEGo L result pending stack).2 = fr :: rest2 → fr.1 < L) := by
  intro stack
  induction stack with
  | nil =>
    intro result pending hr _ hp
    cases pending with
    | none =>
      refine ⟨hr, by simp [popGEGo, stackOk], ?_⟩
      intro fr r2 h
      simp [popGEGo] at h
    | some it =>
      obtain ⟨hok, _⟩ := hp it rfl
      refine ⟨by simp [popGEGo, List.all_append, hr, hok], by simp [popGEGo, stackOk], ?_⟩
      intro fr r2 h
      simp [popGEGo] at h
  | cons fr rest ih =>
    intro result pending hr hst hp
    obtain ⟨lvl, content⟩ := fr
    simp only [stackOk, frameOk, Bool.and_eq_true] at hst
    obtain ⟨⟨⟨hfh, hlio⟩, hnb⟩, hrest⟩ := hst
    have hfr0 : frameOk (lvl, content) = true := by
      simp [frameOk, hfh, hlio]
    cases pending with
    | none =>
      simp only [popGEGo]
      by_cases hL : lvl ≥ L
      · simp only [hL, if_true, ite_true]
        apply ih result (some (ContentItem.sect lvl content)) hr hrest
        intro it hit
        obtain rfl : ContentItem.sect lvl content = it := Option.some.inj hit
        have hfr2 : frameOk (lvl, content) = true := hfr0
        refine ⟨?_, lvl, content, rfl, hL, ?_⟩
        · simp only [itemOk, frameOk, Bool.and_eq_true] at hfr2 ⊢
          exact ⟨hfr2.1, hfr2.2⟩
        · intro fr2 rest2 h2
          subst h2
          simpa using hnb
      · simp only [hL, if_false, ite_false]
        refine ⟨hr, ?_, ?_⟩
        · simp only [stackOk, Bool.and_eq_true]
          exact ⟨⟨hfr0, hnb⟩, hrest⟩
        · intro fr2 rest2 h2
          have h4 : fr2.1 = lvl := by rw [← (List.cons.inj h2).1]
          omega
    | some it =>
      obtain ⟨hok, slvl, scont, hit, hLs, hlt⟩ := hp it rfl
      subst hit
      have hfr2 : frameOk (lvl, content ++ [ContentItem.sect slvl scont]) = true :=
        frameOk_append_sect _ _ _ _ hfr0 hok (hlt (lvl, content) rest rfl)
      simp only [popGEGo]
      by_cases hL : lvl ≥ L
      · simp only [hL, if_true, ite_true]
        apply ih result _ hr hrest
        intro it2 hit2
        obtain rfl : ContentItem.sect lvl (content ++ [ContentItem.sect slvl scont]) = it2 :=
          Option.some.inj hit2
        refine ⟨?_, lvl, _, rfl, hL, ?_⟩
        · simp only [itemOk, frameOk, Bool.and_eq_true] at hfr2 ⊢
          exact ⟨hfr2.1, hfr2.2⟩
        · intro fr2 rest2 h2
          subst h2
          simpa using hnb
      · simp only [hL, if_false, ite_false]
        refine ⟨hr, ?_, ?_⟩
        · simp only [stackOk, Bool.and_eq_true, frameOk] at hfr2 ⊢
          exact ⟨⟨hfr2, hnb⟩, hrest⟩
        · intro fr2 rest2 h2
          have h4 : fr2.1 = lvl := by rw [← (List.cons.inj h2).1]
          omega

theorem heading_push_ok (level : Nat) (text : String) (result : List ContentItem)
    (stack : List (Nat × List ContentItem))
    (hr : result.all itemOk = true) (hs : stackOk stack = true) :
    (popGE level result stack).1.all itemOk = true ∧
      stackOk ((level, [ContentItem.heading level text]) :: (popGE level result stack).2) = true := by
  have h := popGEGo_ok level stack result none hr hs (by intro it hit; cases hit)
  refine ⟨h.1, ?_⟩
  simp only [stackOk, Bool.and_eq_true, popGE]
  refine ⟨⟨?_, ?_⟩, h.2.1⟩
  · simp [frameOk, firstIsHeading, listItemsOk, sectionLevelOk, itemOk]
  · cases hs2 : (popGEGo level result none stack).2 with
    | nil => simp
    | cons fr2 r2 => simpa using h.2.2 fr2 r2 hs2

theorem organizeStep_ok (tree : Node) (p : Bool) (st : OrgState) (b : Block)
    (hr : st.result.all itemOk = true) (hs : stackOk st.stack = true) :
    (organizeStep tree p st b).result.all itemOk = true ∧
      stackOk (organizeStep tree p st b).stack = true := by
  unfold organizeStep
  rcases hbn : blockNode tree b with _ | node
  · exact ⟨hr, hs⟩
  · simp only []
    split
    · exact ⟨hr, hs⟩
    · split
      · exact heading_push_ok _ _ _ _ hr hs
      · split
        · split
          · exact ⟨hr, hs⟩
          · exact appendItem_ok _ _ _ (by simp [itemOk]) (fun lvl => by simp [sectionLevelOk]) hr hs
        · split
          · exact appendItem_ok _ _ _ (by simp [itemOk]) (fun lvl => by simp [sectionLevelOk]) hr hs
          · split
            · exact appendItem_ok _ _ _ (by simp [itemOk]) (fun lvl => by simp [sectionLevelOk]) hr hs
            · split
              · exact appendItem_ok _ _ _ (by simp [itemOk]) (fun lvl => by simp [sectionLevelOk]) hr hs
              · split
                · split
                  · exact ⟨hr, hs⟩
                  · split
                    · split
                      · exact appendItem_ok _ _ _ (by simp [itemOk]) (fun lvl => by simp [sectionLevelOk]) hr hs
                      · exact ⟨hr, hs⟩
                    · exact ⟨hr, hs⟩
                · exact ⟨hr, hs⟩

theorem foldl_organizeStep_ok (tree : Node) (p : Bool) :
    ∀ (bs : List Block) (st : OrgState),
      st.result.all itemOk = true → stackOk st.stack = true →
      ((bs.foldl (organizeStep tree p) st).result.all itemOk = true ∧
        stackOk (bs.foldl (organizeStep tree p) st).stack = true) := by
  intro bs
  induction bs with
  | nil => intro st h1 h2; exact ⟨h1, h2⟩
  | cons b rest ih =>
    intro st h1 h2
    have hstep := organizeStep_ok tree p st b h1 h2
    exact ih (organizeStep tree p st b) hstep.1 hstep.2

theorem foldl_all_ok {β : Type} (step : List ContentItem → β → List ContentItem)
    (hstep : ∀ acc b, acc.all itemOk = true → (step acc b).all itemOk = true) :
    ∀ (bs : List β) (acc : List ContentItem),
      acc.all itemOk = true → (bs.foldl step acc).all itemOk = true := by
  intro bs
  induction bs with
  | nil => intro acc h; exact h
  | cons b rest ih => intro acc h; exact ih (step acc b) (hstep acc b h)

theorem organizeFlat_all_ok (tree : Node) (p : Bool) (blocks : List Block) :
    (organizeFlat tree p blocks).all itemOk = true := by
  unfold organizeFlat
  refine foldl_all_ok _ ?_ blocks [] rfl
  intro acc b hacc
  rcases hbn : blockNode tree b with _ | node
  · simp only [hbn]; exact hacc
  · simp only [hbn]
    split
    · split
      · simp [List.all_append, hacc, itemOk]
      · exact hacc
    · split
      · simp [List.all_append, hacc, itemOk]
      · split
        · simp [List.all_append, hacc, itemOk]
        · split
          · simp [List.all_append, hacc, itemOk]
          · split
            · simp [List.all_append, hacc, itemOk]
            · split
              · split
                · exact hacc
                · split
                  · split
                    · simp [List.all_append, hacc, itemOk]
                    · exact hacc
                  · exact hacc
              · exact hacc

/-
  ## Claim theorems
-/

set_option maxRecDepth 40000

/-- Claim C1, counterexample: on the empty document
(html over an empty body), extract_content_hierarchically does not raise
ExtractError — it returns an empty list as a success, contradicting the
claim that it never returns an empty success. -/
theorem C1_counterexample :
    (extract_content_hierarchically emptyDoc false).1 = Except.ok [] := rfl

/-- Claim C1 (amended): the never-empty-success guarantee lives one
level up.  extract_content_hierarchically itself may return Except.ok
[]; its caller ExtractStage.process checks for an empty result, runs a
direct fallback extraction, and raises ExtractError when that is empty
too — so the stage never returns an empty success for any document. -/
theorem C1_amended_theorem : ∀ (soup : Node) (preserve : Bool),
    extract_stage_process soup preserve ≠ Except.ok [] := by
  intro soup preserve h
  unfold extract_stage_process at h
  split at h
  · exact Except.noConfusion h
  · rename_i content tree1 heq
    split at h
    · rcases hfb : extract_fallback tree1 preserve with _ | ⟨a, as⟩ <;> simp [hfb] at h
    · rename_i hne
      have : content = [] := Except.ok.inj h
      simp [this] at hne

/-- Claim C2, counterexample: doc2 holds one substantial paragraph and
one table whose border attribute is "abc".  The aggressive scan calls
is_data_table with no try/except around it, the int("abc") ValueError
propagates, and the whole extraction fails with ExtractError instead of
returning the paragraph — a single bad block does abort the document. -/
theorem C2_counterexample :
    (extract_content_hierarchically doc2 false).1 =
      Except.error "Failed to extract hierarchical content: invalid literal for int() with base 10" :=
  rfl

/-- Claim C2 (amended): block-local tolerance holds in the hierarchical
organizer, not in the aggressive scan: is_data_table raises on doc2's
malformed table, and organize_hierarchically (whose per-block try/except
catches it) skips that block and still returns the content of the
remaining block. -/
theorem C2_amended_theorem :
    is_data_table doc2_table = Except.error "invalid literal for int() with base 10" ∧
      organize_hierarchically doc2 [Block.ref 3, Block.ref 5] false =
        [ContentItem.paragraph "This paragraph has thirty-plus characters."] :=
  ⟨rfl, rfl⟩

/-- Claim C3: the core is not side-effect-free on its input.  doc3's
body holds a paragraph and a script element (identity 5); after
extract_content_hierarchically returns, the script is gone from the
input tree — get_content_text_length's "copy" aliases the live element
and its decompose calls mutate the caller's soup. -/
theorem C3_theorem :
    (findById doc3 5).isSome = true ∧
      (findById (extract_content_hierarchically doc3 false).2 5).isSome = false ∧
      (extract_content_hierarchically doc3 false).1 =
        Except.ok [ContentItem.paragraph "This paragraph has thirty-plus characters."] :=
  ⟨rfl, rfl, rfl⟩

/-- Claim C4: extraction is not idempotent.  On doc4 the first run
returns four items (the script inside the first div makes that div a
candidate, so its bare text node becomes a synthetic paragraph) and
mutates the tree (the script is decomposed); the second run on the same
snapshot no longer considers that div a candidate and returns three
items. -/
theorem C4_theorem :
    ((extract_content_hierarchically doc4 false).1.toOption.getD []).length = 4 ∧
      ((extract_content_hierarchically
          (extract_content_hierarchically doc4 false).2 false).1.toOption.getD []).length = 3 ∧
      (extract_content_hierarchically doc4 false).1 ≠
        (extract_content_hierarchically (extract_content_hierarchically doc4 false).2 false).1 := by
  refine ⟨rfl, rfl, ?_⟩
  intro h
  have h2 := congrArg (fun r : Except String (List ContentItem) => ((r.toOption).getD []).length) h
  exact absurd h2 (by decide)

/-- Claim C5: on <p>A <b>bold</b> and <span class="x">hi</span> text</p>
the extract.py text renderer with preserve_styles=true returns exactly
"A <b>bold</b> and hi text" — the b element is kept as literal inline
markup and the span wrapper is gone — and in general, for every element
and either flag value, no span element survives the renderer's unwrap
passes. -/
theorem C5_theorem :
    extractpy_get_element_text p5 true = "A <b>bold</b> and hi text" ∧
      ∀ (n : Node) (preserve : Bool), nodeListSpanFree (extractpy_filtered preserve n) = true :=
  ⟨rfl, fun n preserve => extractpy_filtered_spanFree preserve n⟩

/-- Claim C6, counterexample: tbl6 has no thead and its first tr holds
both a th and a td.  The claim says headers are taken from the first
row only if it has a th and no td; the code nevertheless returns
headers ["H"] (the th cells of that row) and also keeps the row among
the data rows. -/
theorem C6_counterexample :
    tbl6.findTag "thead" = none ∧
      ((tbl6.findTag "tr").map (fun r => (r.findTag "td").isSome)) = some true ∧
      extract_table tbl6 false =
        some { caption := none, headers := some ["H"], rows := [["H", "D"], ["a", "b"]] } :=
  ⟨rfl, rfl, rfl⟩

/-- Claim C6 (amended): for every thead-less table, headers come from
the first tr whenever it contains at least one th — a td in that row
does not block header extraction, and only the th cells are used; the
first row is dropped from the data rows only when it has a th and no
td; every remaining tr contributes its td/th cell texts, rows with zero
cells are dropped, and a table with no surviving rows yields None. -/
theorem C6_amended_theorem (table : Node) (preserve : Bool)
    (h : table.findTag "thead" = none) :
    extract_table table preserve = extract_table_spec_noThead table preserve := by
  unfold extract_table extract_table_spec_noThead
  rw [h]
  cases htr : table.findTag "tr" with
  | none => simp [headersFalsy]
  | some fr =>
    cases hth : fr.findTag "th" with
    | none =>
      simp only [hth, Option.isSome_none, Bool.false_eq_true, if_false, ite_false]
      simp [headersFalsy]
    | some th0 =>
      have hne : ¬(fr.findAllTags ["th"]) = [] := by
        intro hnil
        rw [Node.findTag, hnil] at hth
        simp at hth
      simp only [hth, Option.isSome_some, if_true, ite_true]
      cases hbr : table.findAllTags ["tr"] with
      | nil => simp [headersFalsy, List.isEmpty_iff, List.map_eq_nil_iff, hne]
      | cons r0 rs =>
        have hm : (List.map (fun c => get_element_text c preserve) (fr.findAllTags ["th"])).isEmpty = false := by
          simp [List.isEmpty_iff, List.map_eq_nil_iff, hne]
        simp [headersFalsy]
        rw [hm]
        simp

/-- Claim C6, witness: the amended equation instantiated on tbl6. -/
theorem C6_witness :
    tbl6.findTag "thead" = none ∧
      extract_table tbl6 false = extract_table_spec_noThead tbl6 false :=
  ⟨rfl, C6_amended_theorem tbl6 false rfl⟩

/-- Claim C7, counterexample: tbl7 is a single-row table with
border="2" (a positive integer) and tblRole a two-row role="grid" table
with unequal cell counts; the claim classifies both as data tables, but
is_data_table answers false for both — the row-count check returns
before the border check can run, and has_attr("role") == "grid"
compares a bool to a string. -/
theorem C7_counterexample :
    tbl7.getAttr "border" = some "2" ∧
      (tbl7.findAllTags ["tr"]).length = 1 ∧
      is_data_table tbl7 = Except.ok false ∧
      tblRole.getAttr "role" = some "grid" ∧
      is_data_table tblRole = Except.ok false :=
  ⟨rfl, rfl, rfl, rfl, rfl⟩

/-- Claim C7 (amended): is_data_table answers true exactly when the
table has a th, thead or caption descendant, or has at least two rows
and (uniform cell counts above one, or a border attribute that parses
to a positive integer, or a tbody/tfoot descendant or summary
attribute); role="grid" never contributes, and the ValueError raise
happens exactly when the int() call is reached (no earlier positive
check, at least two rows, non-uniform or small cell counts) with a
border attribute that is not an integer literal. -/
theorem C7_amended_theorem (t : Node) :
    is_data_table t =
      (if is_data_table_raises t = true then
        Except.error "invalid literal for int() with base 10"
      else Except.ok (is_data_table_true_chars t)) := by
  unfold is_data_table is_data_table_raises is_data_table_true_chars
  by_cases h1 : (t.findTag "th").isSome <;>
    by_cases h2 : (t.findTag "thead").isSome <;>
      by_cases h3 : (t.findTag "caption").isSome <;>
        simp [h1, h2, h3]
  by_cases h4 : (t.findAllTags ["tr"]).length ≤ 1
  · have h4x : ¬((t.findAllTags ["tr"]).length ≥ 2) := by omega
    simp [h4, h4x]
  · have h4x : (t.findAllTags ["tr"]).length ≥ 2 := by omega
    simp only [h4, h4x, if_true, if_false, ite_false, ite_true, ge_iff_le, decide_eq_true_eq]
    rcases hcc : (t.findAllTags ["tr"]).map (fun r => (r.findAllTags ["td", "th"]).length) with _ | ⟨c0, rest⟩
    · exfalso
      have hlen : (t.findAllTags ["tr"]).length = 0 := by
        simpa using congrArg List.length hcc
      omega
    · simp only [hcc]
      by_cases h5 : rest.all (· = c0) && c0 > 1
      · simp [h5, h4x]
      · simp only [h5]
        cases hb : t.getAttr "border" with
        | none =>
          simp only [Node.hasAttr, hb, Option.isSome_none, Bool.false_eq_true, if_false,
            Option.map_none, h5, h4x]
          simp [h5, h4x]
          by_cases h6 : (t.findTag "tbody").isSome = true <;>
            by_cases h7 : (t.findTag "tfoot").isSome = true <;>
              by_cases h8 : (t.getAttr "summary").isSome = true <;>
                simp [h6, h7, h8]
        | some bv =>
          cases hpi : pyInt bv with
          | none => simp [Node.hasAttr, hb, hpi, h5, h4x]
          | some v =>
            by_cases hv : v > 0
            · simp [Node.hasAttr, hb, hpi, hv, h5, h4x]
            · simp [Node.hasAttr, hb, hpi, hv, h5, h4x]
              by_cases h6 : (t.findTag "tbody").isSome = true <;>
                by_cases h7 : (t.findTag "tfoot").isSome = true <;>
                  by_cases h8 : (t.getAttr "summary").isSome = true <;>
                    simp [h6, h7, h8]

/-- Claim C8, counterexample: in tree8 the paragraph with identity 6
(second child of the div) precedes the paragraph with identity 8 (the
div's sibling) in pre-order, but their ancestor-weighted position keys
tie (both 1), so sorting the list [ref 8, ref 6] leaves ref 8 first —
document order is not restored across subtrees of different depths. -/
theorem C8_counterexample :
    docOrderIndex tree8 6 < docOrderIndex tree8 8 ∧
      get_position tree8 (Block.ref 6) = get_position tree8 (Block.ref 8) ∧
      sort_blocks_by_position tree8 [Block.ref 8, Block.ref 6] = [Block.ref 8, Block.ref 6] :=
  ⟨by decide, rfl, rfl⟩

/-- Claim C8 (amended): sort_blocks_by_position does restore document
order between sibling blocks: if two referenced blocks are children of
the same parent (their paths share the prefix p) and the first has the
smaller child index, it appears strictly before the other in the sorted
output, wherever the two occur in the input list. -/
theorem C8_amended_theorem (tree : Node) (blocks : List Block) (a b : Nat) (p : List Nat)
    (i j : Nat)
    (ha : pathOf tree a = some (p ++ [i])) (hb : pathOf tree b = some (p ++ [j]))
    (hij : i < j) (hma : Block.ref a ∈ blocks) (hmb : Block.ref b ∈ blocks) :
    listBefore (sort_blocks_by_position tree blocks) (Block.ref a) (Block.ref b) :=
  sorted_lt_before (get_position tree) _ _ _
    (sort_blocks_pairwise tree blocks)
    (mem_sort_blocks tree blocks _ hma)
    (mem_sort_blocks tree blocks _ hmb)
    (get_position_sibling_lt tree a b p i j ha hb hij)

/-- Claim C8, witness: the two sibling paragraphs of tree8's div, fed
in reverse order, come out in document order. -/
theorem C8_witness :
    listBefore (sort_blocks_by_position tree8 [Block.ref 6, Block.ref 4])
      (Block.ref 4) (Block.ref 6) :=
  C8_amended_theorem tree8 [Block.ref 6, Block.ref 4] 4 6 [0, 0, 0] 0 1
    (by rfl) (by rfl) (by decide) (by simp) (by simp)

/-- Claim C9: in every sequence returned by organize_hierarchically —
for every tree, block list and flag — every Section at any depth begins
with a Heading of the Section's own level, and every Section nested in
another Section's content has a strictly greater level. -/
theorem C9_theorem : ∀ (tree : Node) (blocks : List Block) (preserve : Bool),
    (organize_hierarchically tree blocks preserve).all itemOk = true := by
  intro tree blocks preserve
  unfold organize_hierarchically
  have hfold := foldl_organizeStep_ok tree preserve blocks
    { result := [], stack := [], processed := [] } rfl rfl
  have hflush := popGEGo_ok 0
    (blocks.foldl (organizeStep tree preserve) { result := [], stack := [], processed := [] }).stack
    (blocks.foldl (organizeStep tree preserve) { result := [], stack := [], processed := [] }).result
    none hfold.1 hfold.2 (by intro it hit; cases hit)
  dsimp only [popGE]
  split
  · exact organizeFlat_all_ok tree preserve blocks
  · exact hflush.1

/-- Claim C10, counterexample: cex10 has class "sidebar nav" (matching
two of the three non-content pattern groups) and three heading
children.  The claim's formula (one total -5 penalty) gives 1.06 — 106
in hundredths — while score_content_element subtracts 5 twice and
floors at 0. -/
theorem C10_counterexample :
    score_content_element cex10 = 0 ∧
      score_content_element_claimC10 cex10 = 106 ∧
      score_content_element cex10 ≠ score_content_element_claimC10 cex10 := by
  refine ⟨rfl, rfl, ?_⟩
  decide

/-- Claim C10 (amended): the score is the sum of the claim's components
floored at 0, except that the non-content penalty is -5 for each of the
three pattern groups matched by the class or id (so up to -15), not a
single -5. -/
theorem C10_amended_theorem : ∀ e : Node,
    score_content_element e =
      max (score_components_no_penalty e - 500 * (nonContentGroupCount e : Int)) 0 := by
  intro e
  simp only [score_content_element, score_components_no_penalty, nonContentGroupCount]
  congr 1
  ring
